import Mathlib

/-!
# Verification of the cart / stock / daily-settlement core

A shallow embedding of the point-of-sale backend's settlement pipeline:

* the Pricing Engine (`money`, `calcLine`) from
  `backend/services/cart_service.py` (`_money`, `_calculate_line`);
* the Stock Ledger and Cart State Machine (`addItem`, `updateItem`,
  `returnItem`, `clearCart`, `updateCartStatus`, `updateCart`) from
  `backend/services/cart_service.py` together with the SQL in
  `backend/repositories/cart_repository.py` and
  `backend/repositories/stock_repository.py`;
* the Daily Settlement Engine (`closeByDate`, `openByDate`) from
  `backend/services/daily_account_service.py` and
  `backend/repositories/daily_account_repository.py`.

Monetary values are embedded as rationals (`ℚ`); the Python code computes
on `Decimal`, which is exact decimal arithmetic, and rounds with
`quantize(Decimal("0.01"), rounding=ROUND_HALF_UP)`, embedded as `money`.
Each request runs in one transaction that commits on success and rolls
back on an `HTTPException` (`backend/db/database.py`), so every operation
is a function `St → Except Err St`: an error leaves the state unchanged.
-/

namespace IManagement

/-- Error kinds carried by `HTTPException` in the services:
404 Not Found, 409 Conflict, 400 Bad Request. `internalError` stands for
an uncaught Python exception (HTTP 500) such as the `AttributeError`
raised in `update_cart_status`, where the `status: CartStatus` parameter
shadows the imported `fastapi.status` module. -/
inductive Err where
  | notFound
  | conflict
  | badRequest
  | internalError
deriving Repr, DecidableEq

/-! ## Pricing engine -/

/-- `CartService._money` / `DailyAccountService._money`:
`value.quantize(Decimal("0.01"), rounding=ROUND_HALF_UP)` — round to two
decimal places, ties away from zero. -/
def money (q : ℚ) : ℚ :=
  if q < 0 then -(((⌊-q * 100 + 1/2⌋ : ℤ) : ℚ) / 100)
  else ((⌊q * 100 + 1/2⌋ : ℤ) : ℚ) / 100

/-- Line totals returned by `CartService._calculate_line` and recomputed
inside `DailyAccountService._aggregate_cart_items`. -/
structure Line where
  line_subtotal : ℚ
  line_discount : ℚ
  line_tax : ℚ
  line_total : ℚ
deriving Repr, DecidableEq

/-- `CartService._calculate_line` (the identical formula is inlined in
`DailyAccountService._aggregate_cart_items`):
subtotal, discount, tax and total each rounded half-up to two decimals. -/
def calcLine (unit_price quantity discount_rate tax_rate : ℚ) : Line :=
  let line_subtotal := money (unit_price * quantity)
  let discount := money (line_subtotal * (discount_rate / 100))
  let taxable := line_subtotal - discount
  let tax := money (taxable * (tax_rate / 100))
  let line_total := money (taxable + tax)
  ⟨line_subtotal, discount, tax, line_total⟩

/-- C4: the pricing function at unit_price=3.335, quantity=2,
discount_rate=10, tax_rate=10 yields line_subtotal=6.67,
line_discount=0.67, line_tax=0.60, line_total=6.60 — half-up rounding is
applied at every intermediate step, not once at the end. -/
theorem calcLine_rounds_half_up_each_step :
    calcLine (667/200) 2 10 10 =
      { line_subtotal := 667/100, line_discount := 67/100,
        line_tax := 60/100, line_total := 660/100 } := by
  norm_num [calcLine, money]

/-! ## Data model

Rows of the `items`, `stock_entries`, `carts`, `cart_items`,
`daily_accounts` and `daily_account_items` tables
(`backend/db/schema.py`, hydrated by `backend/models/*.py`).
Audit columns (`created_by`, `updated_by`, timestamps) that no claim
observes are omitted, except the `closed_at`/`closed_by` pair on daily
accounts; `created_at` of a cart is abstracted to the calendar day
`created_date` that the daily close's 24h window selects on. -/

/-- `CartStatus` enumeration (`backend/models/cart.py`). -/
inductive CartStatus where
  | draft
  | completed
  | deleted
deriving Repr, DecidableEq

/-- An `items` row. The three `REAL` columns hold IEEE-754 doubles; the
`ℚ` fields here carry the decimal value `Decimal(str(float))` recovers
from them (the shortest decimal literal, i.e. the value as entered),
which is what `CartItem.from_row` and `_aggregate_cart_items` hydrate.
`Item.from_row` instead hydrates `Decimal(float)`, the bit-exact binary
value, modeled below by `float64` applied to these fields. -/
structure CatalogItem where
  id : ℕ
  name : String
  sku : String
  unit_price : ℚ
  discount_rate : ℚ
  tax_rate : ℚ
deriving Repr, DecidableEq

/-- A `stock_entries` row (`item_id` is UNIQUE in the table). -/
structure StockEntry where
  item_id : ℕ
  quantity : ℚ
deriving Repr, DecidableEq

/-- A `carts` row. -/
structure Cart where
  id : ℕ
  desk_number : Option String
  status : CartStatus
  created_date : ℕ
deriving Repr, DecidableEq

/-- A `cart_items` row. -/
structure CartItem where
  id : ℕ
  cart_id : ℕ
  item_id : ℕ
  quantity : ℚ
deriving Repr, DecidableEq

/-- A `daily_accounts` row. -/
structure DailyAccount where
  id : ℕ
  account_date : ℕ
  subtotal : ℚ
  discount_total : ℚ
  tax_total : ℚ
  total : ℚ
  carts_count : ℕ
  items_count : ℕ
  is_closed : Bool
  closed_at : Option ℕ
  closed_by : Option ℕ
deriving Repr, DecidableEq

/-- A `daily_account_items` row (snapshot of pricing at close time). -/
structure DailyAccountItem where
  id : ℕ
  account_id : ℕ
  item_id : ℕ
  item_name : String
  sku : String
  quantity : ℚ
  unit_price : ℚ
  discount_rate : ℚ
  tax_rate : ℚ
  line_subtotal : ℚ
  line_discount : ℚ
  line_tax : ℚ
  line_total : ℚ
deriving Repr, DecidableEq

/-- The database state seen by the services. The `next_*` counters model
SQLite rowid allocation for the three tables the services insert into. -/
structure St where
  items : List CatalogItem
  stocks : List StockEntry
  carts : List Cart
  cart_items : List CartItem
  accounts : List DailyAccount
  account_items : List DailyAccountItem
  next_cart_item_id : ℕ
  next_account_id : ℕ
  next_account_item_id : ℕ
deriving Repr, DecidableEq

/-! ## Repository lookups (SQL SELECTs) -/

/-- `CartRepository.get_by_id`. -/
def findCart? (s : St) (cart_id : ℕ) : Option Cart :=
  s.carts.find? (fun c => c.id == cart_id)

/-- `ItemRepository.get_by_id`. -/
def findItem? (s : St) (item_id : ℕ) : Option CatalogItem :=
  s.items.find? (fun i => i.id == item_id)

/-- `StockRepository.get_by_item_id`. -/
def findStock? (s : St) (item_id : ℕ) : Option StockEntry :=
  s.stocks.find? (fun e => e.item_id == item_id)

/-- `CartRepository.get_cart_item_by_id`. -/
def findCartItemById? (s : St) (cart_item_id : ℕ) : Option CartItem :=
  s.cart_items.find? (fun r => r.id == cart_item_id)

/-- `CartRepository.get_cart_item_by_cart_and_item`. -/
def findCartItemByCartAndItem? (s : St) (cart_id item_id : ℕ) :
    Option CartItem :=
  s.cart_items.find? (fun r => r.cart_id == cart_id && r.item_id == item_id)

/-- `CartRepository.list_cart_items_by_cart` (cart item ids are inserted
in increasing order, so list order is `ORDER BY id`). -/
def listCartItems (s : St) (cart_id : ℕ) : List CartItem :=
  s.cart_items.filter (fun r => r.cart_id == cart_id)

/-- `StockRepository.adjust_quantity`: `UPDATE stock_entries SET
quantity = quantity + delta WHERE item_id = ?`. A missing entry makes
this a no-op (the UPDATE matches zero rows). -/
def adjustQuantity (s : St) (item_id : ℕ) (delta : ℚ) : St :=
  { s with stocks := s.stocks.map (fun e =>
      if e.item_id == item_id then { e with quantity := e.quantity + delta }
      else e) }

/-! ## Cart state machine (`CartService`) -/

/-- `CartService._get_cart_item`: first try `cart_item_id` as a cart item
id belonging to the cart; otherwise fall back to reading it as an
`item_id` of an item present in the cart. -/
def getCartItem? (s : St) (cart_id cart_item_id : ℕ) : Option CartItem :=
  match findCartItemById? s cart_item_id with
  | some r =>
      if r.cart_id == cart_id then some r
      else findCartItemByCartAndItem? s cart_id cart_item_id
  | none => findCartItemByCartAndItem? s cart_id cart_item_id

/-- `CartService.add_item`: 404 if the cart or catalog item is missing,
409 if the cart is not draft, the item has no stock entry, the
(cart, item) pair already exists, or the quantity exceeds on-hand stock;
otherwise insert the cart item row and decrement stock. -/
def addItem (s : St) (cart_id item_id : ℕ) (quantity : ℚ) : Except Err St :=
  match findCart? s cart_id with
  | none => .error .notFound
  | some cart =>
    if cart.status ≠ CartStatus.draft then .error .conflict
    else match findItem? s item_id with
    | none => .error .notFound
    | some item =>
      match findStock? s item.id with
      | none => .error .conflict
      | some stock =>
        if (findCartItemByCartAndItem? s cart.id item.id).isSome then
          .error .conflict
        else if quantity > stock.quantity then .error .conflict
        else
          let s1 := { s with
            cart_items := s.cart_items ++
              [⟨s.next_cart_item_id, cart.id, item.id, quantity⟩],
            next_cart_item_id := s.next_cart_item_id + 1 }
          .ok (adjustQuantity s1 item.id (-quantity))

/-- `CartService.update_item`: quantity 0 restores stock and deletes the
row; otherwise the positive part of `delta = new - old` is checked
against stock, the row is updated and stock adjusted by `-delta`. -/
def updateItem (s : St) (cart_id cart_item_id : ℕ) (quantity : ℚ) :
    Except Err St :=
  match findCart? s cart_id with
  | none => .error .notFound
  | some cart =>
    if cart.status ≠ CartStatus.draft then .error .conflict
    else match getCartItem? s cart.id cart_item_id with
    | none => .error .notFound
    | some ci =>
      if quantity = 0 then
        let s1 := adjustQuantity s ci.item_id ci.quantity
        .ok { s1 with
          cart_items := s1.cart_items.filter (fun r => !(r.id == ci.id)) }
      else
        let delta := quantity - ci.quantity
        let upd : St → St := fun t =>
          let t1 := { t with cart_items := t.cart_items.map (fun r =>
            if r.id == ci.id then { r with quantity := quantity } else r) }
          adjustQuantity t1 ci.item_id (-delta)
        if delta > 0 then
          match findStock? s ci.item_id with
          | none => .error .conflict
          | some stock =>
            if delta > stock.quantity then .error .conflict
            else .ok (upd s)
        else .ok (upd s)

/-- `CartService.return_item`: resolves the cart item strictly by row id
(404 if missing or belonging to another cart); an omitted quantity means
a full return; the quantity must be positive and at most the held
quantity; stock is restored and the row reduced or deleted. -/
def returnItem (s : St) (cart_id cart_item_id : ℕ) (quantity? : Option ℚ) :
    Except Err St :=
  match findCart? s cart_id with
  | none => .error .notFound
  | some cart =>
    if cart.status ≠ CartStatus.draft then .error .conflict
    else match findCartItemById? s cart_item_id with
    | none => .error .notFound
    | some ci =>
      if ci.cart_id ≠ cart_id then .error .notFound
      else
        let ret := quantity?.getD ci.quantity
        if ret ≤ 0 then .error .badRequest
        else if ret > ci.quantity then .error .badRequest
        else
          let s1 := adjustQuantity s ci.item_id ret
          let newq := ci.quantity - ret
          if newq = 0 then
            .ok { s1 with
              cart_items := s1.cart_items.filter (fun r => !(r.id == ci.id)) }
          else
            .ok { s1 with cart_items := s1.cart_items.map (fun r =>
              if r.id == ci.id then { r with quantity := newq } else r) }

/-- `CartService.clear_cart`: restore stock for every item of the cart,
then delete all of the cart's rows. -/
def clearCart (s : St) (cart_id : ℕ) : Except Err St :=
  match findCart? s cart_id with
  | none => .error .notFound
  | some cart =>
    if cart.status ≠ CartStatus.draft then .error .conflict
    else
      let s1 := (listCartItems s cart.id).foldl
        (fun t ci => adjustQuantity t ci.item_id ci.quantity) s
      .ok { s1 with
        cart_items := s1.cart_items.filter (fun r => !(r.cart_id == cart.id)) }

/-- `CartService.update_cart_status`. The two transition guards build
`HTTPException(status_code=status.HTTP_409_CONFLICT, ...)`, but the
`status: CartStatus` parameter shadows the imported `fastapi.status`
module, so evaluating `status.HTTP_409_CONFLICT` raises `AttributeError`
(HTTP 500, transaction rolled back), embedded as `Err.internalError`. -/
def updateCartStatus (s : St) (cart_id : ℕ) (new_status : CartStatus) :
    Except Err St :=
  match findCart? s cart_id with
  | none => .error .notFound
  | some cart =>
    if cart.status = CartStatus.completed ∧ new_status ≠ CartStatus.completed
    then .error .internalError
    else if cart.status = CartStatus.deleted ∧ new_status ≠ CartStatus.deleted
    then .error .internalError
    else .ok { s with carts := s.carts.map (fun c =>
      if c.id == cart.id then { c with status := new_status } else c) }

/-- `CartService.update_cart` (metadata): only draft carts; a desk number
held by a different cart is a 409; `update_desk_number` then writes the
payload's `desk_number` — including `NULL` when it was omitted. -/
def updateCart (s : St) (cart_id : ℕ) (desk_number : Option String) :
    Except Err St :=
  match findCart? s cart_id with
  | none => .error .notFound
  | some cart =>
    if cart.status ≠ CartStatus.draft then .error .conflict
    else
      let dup : Bool :=
        match desk_number with
        | some d =>
          match s.carts.find? (fun c => c.desk_number == some d) with
          | some existing => existing.id != cart.id
          | none => false
        | none => false
      if dup then .error .conflict
      else .ok { s with carts := s.carts.map (fun c =>
        if c.id == cart.id then { c with desk_number := desk_number } else c) }

/-! ## Cart totals and daily settlement -/

/-- Cart-level or account-level totals payload. -/
structure Totals where
  subtotal : ℚ
  discount_total : ℚ
  tax_total : ℚ
  total : ℚ
deriving Repr, DecidableEq

/-- A `cart_items ⋈ items` row: the shape selected by
`DailyAccountService._aggregate_cart_items` and built by
`calculate_totals` through its `item_map` (both skip cart items whose
catalog row is missing, as the SQL `JOIN` does); the two pipelines
hydrate the catalog columns differently, see `joinRow`/`joinRowCart`. -/
structure JoinedRow where
  item_id : ℕ
  quantity : ℚ
  name : String
  sku : String
  unit_price : ℚ
  discount_rate : ℚ
  tax_rate : ℚ
deriving Repr, DecidableEq

/-- Round half to even to an integer (IEEE-754 default rounding). -/
def rhe (x : ℚ) : ℤ :=
  if x - ⌊x⌋ < 1/2 then ⌊x⌋
  else if 1/2 < x - ⌊x⌋ then ⌊x⌋ + 1
  else if 2 ∣ ⌊x⌋ then ⌊x⌋ else ⌊x⌋ + 1

/-- The IEEE-754 binary64 value nearest to `q`, as an exact rational:
the number the `REAL` column actually stores for the decimal `q`, and
hence the value `Decimal(float)` (as in `Item.from_row`) exposes
bit-exactly, e.g. `float64 3.335 = 3.33499999999999996447…`. Normal
range only: catalog magnitudes never reach subnormals or overflow, so
their clamping is not modeled. -/
def float64 (q : ℚ) : ℚ :=
  if q = 0 then 0
  else if 0 < q then
    (rhe (q * (2 : ℚ) ^ (52 - Int.log 2 q)) : ℚ) *
      (2 : ℚ) ^ (Int.log 2 q - 52)
  else
    -((rhe (-q * (2 : ℚ) ^ (52 - Int.log 2 (-q))) : ℚ) *
      (2 : ℚ) ^ (Int.log 2 (-q) - 52))

/-- Join one cart item with its catalog row, if present, as the
settlement aggregation reads it: `Decimal(str(float))` on the three
catalog columns recovers the stored decimal values themselves. -/
def joinRow (s : St) (ci : CartItem) : Option JoinedRow :=
  (findItem? s ci.item_id).map (fun i =>
    ⟨ci.item_id, ci.quantity, i.name, i.sku,
      i.unit_price, i.discount_rate, i.tax_rate⟩)

/-- Join one cart item with its catalog row as `calculate_totals` reads
it: `_list_items` hydrates the catalog columns through `Item.from_row`,
i.e. `Decimal(float)`, the binary64 image of the stored decimal.
(`quantity` comes through `CartItem.from_row`'s `Decimal(str(float))`
in both pipelines.) -/
def joinRowCart (s : St) (ci : CartItem) : Option JoinedRow :=
  (findItem? s ci.item_id).map (fun i =>
    ⟨ci.item_id, ci.quantity, i.name, i.sku,
      float64 i.unit_price, float64 i.discount_rate,
      float64 i.tax_rate⟩)

/-- The joined rows of a single cart as `calculate_totals` builds them,
in `ORDER BY id` order. -/
def cartRows (s : St) (cart_id : ℕ) : List JoinedRow :=
  (listCartItems s cart_id).filterMap (joinRowCart s)

/-- The pricing line of a joined row (`_calculate_line` applied to the
catalog fields and the row quantity). -/
def lineOf (r : JoinedRow) : Line :=
  calcLine r.unit_price r.quantity r.discount_rate r.tax_rate

/-- `CartService.calculate_totals` (the totals object): an empty cart
yields `_empty_totals()`; otherwise line values are summed raw and each
sum quantized with `_money`, the grand total being
`subtotal - discount_total + tax_total` before its own quantization. -/
def calculateTotals (s : St) (cart_id : ℕ) : Totals :=
  if (listCartItems s cart_id).isEmpty then ⟨0, 0, 0, 0⟩
  else
    let lines := (cartRows s cart_id).map lineOf
    let subtotal := (lines.map Line.line_subtotal).sum
    let discount_total := (lines.map Line.line_discount).sum
    let tax_total := (lines.map Line.line_tax).sum
    ⟨money subtotal, money discount_total, money tax_total,
      money (subtotal - discount_total + tax_total)⟩

/-- The joined rows of all cart items whose `cart_id` is in `cart_ids`
(`WHERE ci.cart_id IN (...)`), in table order. -/
def dayRows (s : St) (cart_ids : List ℕ) : List JoinedRow :=
  (s.cart_items.filter (fun ci => cart_ids.contains ci.cart_id)).filterMap
    (joinRow s)

/-- One aggregated entry of `DailyAccountService._aggregate_cart_items`. -/
structure AggItem where
  item_id : ℕ
  name : String
  sku : String
  quantity : ℚ
  unit_price : ℚ
  discount_rate : ℚ
  tax_rate : ℚ
  line_subtotal : ℚ
  line_discount : ℚ
  line_tax : ℚ
  line_total : ℚ
deriving Repr, DecidableEq

/-- First occurrence of an item: line pricing at the row quantity. -/
def mkAggItem (r : JoinedRow) : AggItem :=
  let l := lineOf r
  ⟨r.item_id, r.name, r.sku, r.quantity, r.unit_price, r.discount_rate,
    r.tax_rate, l.line_subtotal, l.line_discount, l.line_tax, l.line_total⟩

/-- Repeated occurrence: add the quantity and re-price the whole line at
the summed quantity with the current catalog fields. -/
def bumpAggItem (a : AggItem) (q : ℚ) : AggItem :=
  let quantity := a.quantity + q
  let l := calcLine a.unit_price quantity a.discount_rate a.tax_rate
  { a with
    quantity := quantity, line_subtotal := l.line_subtotal,
    line_discount := l.line_discount, line_tax := l.line_tax,
    line_total := l.line_total }

/-- One step of the aggregation loop body (dict keyed by `item_id`,
insertion ordered). -/
def aggStep (acc : List AggItem) (r : JoinedRow) : List AggItem :=
  if acc.any (fun a => a.item_id == r.item_id) then
    acc.map (fun a =>
      if a.item_id == r.item_id then bumpAggItem a r.quantity else a)
  else acc ++ [mkAggItem r]

/-- `DailyAccountService._aggregate_cart_items` applied to joined rows. -/
def aggregateCartItems (rows : List JoinedRow) : List AggItem :=
  rows.foldl aggStep []

/-- `DailyAccountService._calculate_totals`: raw sums of the aggregated
line values, each quantized; total quantized from the raw sums. -/
def dailyTotals (agg : List AggItem) : Totals :=
  let subtotal := (agg.map AggItem.line_subtotal).sum
  let discount_total := (agg.map AggItem.line_discount).sum
  let tax_total := (agg.map AggItem.line_tax).sum
  ⟨money subtotal, money discount_total, money tax_total,
    money (subtotal - discount_total + tax_total)⟩

/-- `DailyAccountRepository.get_by_date`. -/
def findAccountByDate? (s : St) (d : ℕ) : Option DailyAccount :=
  s.accounts.find? (fun a => a.account_date == d)

/-- `DailyAccountService._get_carts_by_date`: the carts whose creation
timestamp falls in the date's 24h window, regardless of status. -/
def cartsForDate (s : St) (d : ℕ) : List Cart :=
  s.carts.filter (fun c => c.created_date == d)

/-- The loop storing aggregated items via
`DailyAccountRepository.create_item`. -/
def insertAccountItems (s : St) (account_id : ℕ) (agg : List AggItem) : St :=
  agg.foldl (fun t a =>
    { t with
      account_items := t.account_items ++
        [⟨t.next_account_item_id, account_id, a.item_id, a.name, a.sku,
          a.quantity, a.unit_price, a.discount_rate, a.tax_rate,
          a.line_subtotal, a.line_discount, a.line_tax, a.line_total⟩],
      next_account_item_id := t.next_account_item_id + 1 }) s

/-- `DailyAccountRepository.close_account`: set the closed flag and the
audit pair. -/
def closeAccountRow (s : St) (account_id : ℕ) (closed_by now : ℕ) : St :=
  { s with accounts := s.accounts.map (fun a =>
      if a.id == account_id then
        { a with
          is_closed := true, closed_at := some now,
          closed_by := some closed_by }
      else a) }

/-- `DailyAccountService.close_by_date`: 409 when the date is already
closed, 400 when the date has no carts; otherwise aggregate the date's
carts, then update the existing account row in place (deleting and
recreating its item snapshot) or create a fresh account with its items,
and finally mark it closed. -/
def closeByDate (s : St) (d user now : ℕ) : Except Err St :=
  match findAccountByDate? s d with
  | some acc =>
    if acc.is_closed then .error .conflict
    else
      let carts := cartsForDate s d
      if carts.isEmpty then .error .badRequest
      else
        let agg := aggregateCartItems (dayRows s (carts.map Cart.id))
        let t := dailyTotals agg
        let s1 := { s with accounts := s.accounts.map (fun a : DailyAccount =>
          if a.id == acc.id then
            { a with
              subtotal := t.subtotal,
              discount_total := t.discount_total, tax_total := t.tax_total,
              total := t.total, carts_count := carts.length,
              items_count := agg.length }
          else a) }
        let s2 := { s1 with account_items :=
          s1.account_items.filter (fun r => !(r.account_id == acc.id)) }
        let s3 := insertAccountItems s2 acc.id agg
        .ok (closeAccountRow s3 acc.id user now)
  | none =>
      let carts := cartsForDate s d
      if carts.isEmpty then .error .badRequest
      else
        let agg := aggregateCartItems (dayRows s (carts.map Cart.id))
        let t := dailyTotals agg
        let acc : DailyAccount :=
          ⟨s.next_account_id, d, t.subtotal, t.discount_total, t.tax_total,
            t.total, carts.length, agg.length, false, none, none⟩
        let s1 := { s with
          accounts := s.accounts ++ [acc],
          next_account_id := s.next_account_id + 1 }
        let s2 := insertAccountItems s1 acc.id agg
        .ok (closeAccountRow s2 acc.id user now)

/-- `DailyAccountService.open_by_date`: 404 when no account exists for
the date, 409 when it is already open; otherwise clear the closed flag
and the `closed_at`/`closed_by` pair, leaving every other column and all
`daily_account_items` rows untouched. -/
def openByDate (s : St) (d _user : ℕ) : Except Err St :=
  match findAccountByDate? s d with
  | none => .error .notFound
  | some acc =>
    if !acc.is_closed then .error .conflict
    else .ok { s with accounts := s.accounts.map (fun a =>
        if a.id == acc.id then
          { a with is_closed := false, closed_at := none, closed_by := none }
        else a) }

/-! ## Helper lemmas -/

/-- `find?` commutes with a map that does not change the predicate. -/
theorem find?_map_of_preserve {α : Type} (p : α → Bool) (f : α → α)
    (l : List α) (hf : ∀ a, p (f a) = p a) :
    (l.map f).find? p = (l.find? p).map f := by
  rw [List.find?_map]
  have hpf : p ∘ f = p := funext hf
  rw [hpf]

/-! ## C9: update_cart with no desk_number clears the column -/

/-- C9: calling `update_cart` on a draft cart with `desk_number` absent
writes NULL into the cart's `desk_number` column, erasing any previously
assigned desk number, rather than leaving it unchanged; cart items and
stock are untouched. -/
theorem updateCart_none_erases_desk_number (s : St) (cart_id : ℕ)
    (cart : Cart) (hc : findCart? s cart_id = some cart)
    (hd : cart.status = CartStatus.draft) :
    ∃ s', updateCart s cart_id none = .ok s' ∧
      findCart? s' cart_id = some { cart with desk_number := none } ∧
      s'.cart_items = s.cart_items ∧ s'.stocks = s.stocks := by
  refine ⟨{ s with carts := s.carts.map (fun c =>
      if c.id == cart.id then { c with desk_number := none } else c) },
    ?_, ?_, rfl, rfl⟩
  · simp [updateCart, hc, hd]
  · unfold findCart?
    rw [find?_map_of_preserve (fun c : Cart => c.id == cart_id)
      (fun c => if c.id == cart.id then { c with desk_number := none } else c)
      s.carts (fun a => by by_cases h : a.id == cart.id <;> simp [h])]
    have hfind : s.carts.find? (fun c => c.id == cart_id) = some cart := hc
    rw [hfind]
    simp

/-- A concrete database state used to instantiate proved theorems:
one catalog item, its stock entry, a draft cart with a desk number
holding one cart item, a completed cart, and a closed daily account. -/
def exSt : St :=
  { items := [⟨1, "apple", "SKU1", 2, 0, 0⟩]
    stocks := [⟨1, 5⟩]
    carts := [⟨1, some "7", CartStatus.draft, 3⟩,
              ⟨2, none, CartStatus.completed, 3⟩,
              ⟨3, none, CartStatus.deleted, 3⟩]
    cart_items := [⟨1, 1, 1, 2⟩]
    accounts := [⟨1, 3, 4, 0, 0, 4, 2, 1, true, some 99, some 9⟩]
    account_items := [⟨1, 1, 1, "apple", "SKU1", 2, 2, 0, 0, 4, 0, 0, 4⟩]
    next_cart_item_id := 2
    next_account_id := 2
    next_account_item_id := 2 }

/-- Witness for C9 at the concrete state: cart 1 holds desk number "7"
and loses it. -/
theorem updateCart_none_erases_desk_number_witness :
    ∃ s', updateCart exSt 1 none = .ok s' ∧
      findCart? s' 1 =
        some { id := 1, desk_number := none, status := CartStatus.draft,
               created_date := 3 } ∧
      s'.cart_items = exSt.cart_items ∧ s'.stocks = exSt.stocks :=
  updateCart_none_erases_desk_number exSt 1
    ⟨1, some "7", CartStatus.draft, 3⟩ rfl rfl

/-! ## C7: reopening preserves everything but the closed flags -/

/-- C7: `open_by_date` fails NotFound when no account exists for the
date and Conflict when the account is already open; on success it only
clears `is_closed`/`closed_at`/`closed_by` on the date's account —
totals, counts and every `daily_account_items` snapshot row (and the
rest of the database) are left intact. -/
theorem openByDate_frame (s : St) (d u : ℕ) :
    (findAccountByDate? s d = none → openByDate s d u = .error .notFound) ∧
    (∀ acc, findAccountByDate? s d = some acc → acc.is_closed = false →
      openByDate s d u = .error .conflict) ∧
    (∀ acc, findAccountByDate? s d = some acc → acc.is_closed = true →
      ∃ s', openByDate s d u = .ok s' ∧
        findAccountByDate? s' d =
          some { acc with
                 is_closed := false, closed_at := none,
                 closed_by := none } ∧
        s'.account_items = s.account_items ∧
        s'.carts = s.carts ∧ s'.cart_items = s.cart_items ∧
        s'.stocks = s.stocks ∧ s'.items = s.items) := by
  refine ⟨fun h => by simp [openByDate, h],
    fun acc ha ho => by simp [openByDate, ha, ho],
    fun acc ha hcl => ?_⟩
  refine ⟨{ s with accounts := s.accounts.map (fun a =>
      if a.id == acc.id then
        { a with is_closed := false, closed_at := none, closed_by := none }
      else a) }, ?_, ?_, rfl, rfl, rfl, rfl, rfl⟩
  · simp [openByDate, ha, hcl]
  · unfold findAccountByDate?
    rw [find?_map_of_preserve (fun a : DailyAccount => a.account_date == d)
      (fun a =>
        if a.id == acc.id then
          { a with is_closed := false, closed_at := none, closed_by := none }
        else a)
      s.accounts (fun a => by by_cases h : a.id == acc.id <;> simp [h])]
    have hfind : s.accounts.find? (fun a => a.account_date == d) = some acc :=
      ha
    rw [hfind]
    simp

/-- Witness for C7 at the concrete state: the closed account for date 3
reopens with its figures and snapshot rows intact. -/
theorem openByDate_frame_witness :
    ∃ s', openByDate exSt 3 9 = .ok s' ∧
      findAccountByDate? s' 3 =
        some ⟨1, 3, 4, 0, 0, 4, 2, 1, false, none, none⟩ ∧
      s'.account_items = exSt.account_items ∧
      s'.carts = exSt.carts ∧ s'.cart_items = exSt.cart_items ∧
      s'.stocks = exSt.stocks ∧ s'.items = exSt.items :=
  (openByDate_frame exSt 3 9).2.2
    ⟨1, 3, 4, 0, 0, 4, 2, 1, true, some 99, some 9⟩ rfl rfl

/-! ## C8: returning exactly the held quantity equals a full return -/

/-- C8: on a draft cart, `return_item` with quantity exactly the held
quantity produces the same state as `return_item` with quantity omitted:
the cart item row is removed and the full quantity is restored to
stock. -/
theorem returnItem_full_eq_omitted (s : St) (cart_id cart_item_id : ℕ)
    (cart : Cart) (ci : CartItem) (st : StockEntry)
    (hc : findCart? s cart_id = some cart)
    (hd : cart.status = CartStatus.draft)
    (hci : findCartItemById? s cart_item_id = some ci)
    (hb : ci.cart_id = cart_id)
    (hq : 0 < ci.quantity)
    (hs : findStock? s ci.item_id = some st) :
    returnItem s cart_id cart_item_id (some ci.quantity) =
      returnItem s cart_id cart_item_id none ∧
    ∃ s', returnItem s cart_id cart_item_id none = .ok s' ∧
      s'.cart_items = s.cart_items.filter (fun r => !(r.id == ci.id)) ∧
      findStock? s' ci.item_id =
        some { st with quantity := st.quantity + ci.quantity } := by
  have hnle : ¬ ci.quantity ≤ 0 := not_le.mpr hq
  constructor
  · simp [returnItem, hc, hd, hci, hb]
  · refine ⟨{ adjustQuantity s ci.item_id ci.quantity with
      cart_items := s.cart_items.filter (fun r => !(r.id == ci.id)) },
      ?_, rfl, ?_⟩
    · simp [returnItem, hc, hd, hci, hb, hnle, adjustQuantity]
    · show (List.map _ s.stocks).find? _ = _
      rw [find?_map_of_preserve (fun e : StockEntry => e.item_id == ci.item_id)
        (fun e =>
          if e.item_id == ci.item_id then
            { e with quantity := e.quantity + ci.quantity }
          else e)
        s.stocks (fun e => by by_cases h : e.item_id == ci.item_id <;> simp [h])]
      have hfind : s.stocks.find? (fun e => e.item_id == ci.item_id) = some st :=
        hs
      rw [hfind]
      have hst := List.find?_some hfind
      rw [beq_iff_eq] at hst
      simp [hst]

/-- Witness for C8 at the concrete state: cart item 1 (quantity 2) in
draft cart 1, stock 5 becoming 7. -/
theorem returnItem_full_eq_omitted_witness :
    returnItem exSt 1 1 (some 2) = returnItem exSt 1 1 none ∧
    ∃ s', returnItem exSt 1 1 none = .ok s' ∧
      s'.cart_items = exSt.cart_items.filter (fun r => !(r.id == 1)) ∧
      findStock? s' 1 = some { item_id := 1, quantity := 5 + 2 } :=
  returnItem_full_eq_omitted exSt 1 1 ⟨1, some "7", CartStatus.draft, 3⟩
    ⟨1, 1, 1, 2⟩ ⟨1, 5⟩ rfl rfl rfl rfl (by norm_num) rfl

/-! ## C5: behavior of mutating operations on terminal carts -/

/-- C5 (observed behavior at the failing input): on a completed cart
(id 2) and on a deleted cart (id 3) every item or metadata mutation
fails with 409 Conflict and the state is rolled back, but a status
transition to a different status does not fail with Conflict: the guard
in `CartService.update_cart_status` evaluates
`status.HTTP_409_CONFLICT` on the shadowing `CartStatus` parameter and
raises `AttributeError` (HTTP 500), embedded as `Err.internalError`. -/
theorem terminal_cart_operations_behavior :
    addItem exSt 2 1 1 = .error .conflict ∧
    updateItem exSt 2 1 1 = .error .conflict ∧
    returnItem exSt 2 1 none = .error .conflict ∧
    clearCart exSt 2 = .error .conflict ∧
    updateCart exSt 2 (some "9") = .error .conflict ∧
    addItem exSt 3 1 1 = .error .conflict ∧
    updateItem exSt 3 1 1 = .error .conflict ∧
    returnItem exSt 3 1 none = .error .conflict ∧
    clearCart exSt 3 = .error .conflict ∧
    updateCart exSt 3 (some "9") = .error .conflict ∧
    updateCartStatus exSt 2 CartStatus.draft = .error .internalError ∧
    updateCartStatus exSt 2 CartStatus.deleted = .error .internalError ∧
    updateCartStatus exSt 3 CartStatus.draft = .error .internalError ∧
    updateCartStatus exSt 3 CartStatus.completed = .error .internalError :=
  ⟨rfl, rfl, rfl, rfl, rfl, rfl, rfl, rfl, rfl, rfl, rfl, rfl, rfl, rfl⟩

/-! ## C10: update_item resolution with item_id fallback -/

/-- `_get_cart_item` resolves to nothing exactly when the identifier
matches neither a cart item id in the cart nor an item_id present in the
cart (cart item ids are unique — `id` is the table's primary key). -/
theorem getCartItem?_eq_none_iff (s : St) (cart_id ci_id : ℕ)
    (hids : (s.cart_items.map CartItem.id).Nodup) :
    getCartItem? s cart_id ci_id = none ↔
      (∀ r ∈ s.cart_items, ¬(r.id = ci_id ∧ r.cart_id = cart_id)) ∧
      (∀ r ∈ s.cart_items, ¬(r.cart_id = cart_id ∧ r.item_id = ci_id)) := by
  have hfb : findCartItemByCartAndItem? s cart_id ci_id = none ↔
      ∀ r ∈ s.cart_items, ¬(r.cart_id = cart_id ∧ r.item_id = ci_id) := by
    unfold findCartItemByCartAndItem?
    rw [List.find?_eq_none]
    constructor
    · intro h r hr hco
      have := h r hr
      simp [hco.1, hco.2] at this
    · intro h r hr
      have := h r hr
      simpa using this
  unfold getCartItem?
  cases hby : findCartItemById? s ci_id with
  | none =>
    have hA : ∀ r ∈ s.cart_items, ¬(r.id = ci_id ∧ r.cart_id = cart_id) := by
      intro r hr hco
      have := List.find?_eq_none.mp hby r hr
      simp [hco.1] at this
    simpa [hfb] using fun _ => hA
  | some r =>
    dsimp only
    have hrmem : r ∈ s.cart_items := List.mem_of_find?_eq_some hby
    have hrid : r.id = ci_id := by
      have := List.find?_some hby
      simpa using this
    by_cases hrc : (r.cart_id == cart_id) = true
    · rw [if_pos hrc]
      have hrc' : r.cart_id = cart_id := by simpa using hrc
      constructor
      · intro h
        exact absurd h (by simp)
      · intro ⟨hA, _⟩
        exact absurd ⟨hrid, hrc'⟩ (hA r hrmem)
    · rw [if_neg hrc]
      rw [hfb]
      have hrc' : ¬ r.cart_id = cart_id := by simpa using hrc
      have hA : ∀ r' ∈ s.cart_items, ¬(r'.id = ci_id ∧ r'.cart_id = cart_id) := by
        intro r' hr' hco
        have heq : r' = r :=
          List.inj_on_of_nodup_map hids hr' hrmem (by rw [hco.1, hrid])
        exact hrc' (heq ▸ hco.2)
      exact ⟨fun hB => ⟨hA, hB⟩, fun h => h.2⟩

/-- On a draft cart, once `_get_cart_item` resolves a row, `update_item`
never returns NotFound. -/
theorem updateItem_resolved_ne_notFound (s : St) (cart_id cart_item_id : ℕ)
    (cart : Cart) (ci : CartItem) (q : ℚ)
    (hc : findCart? s cart_id = some cart)
    (hd : cart.status = CartStatus.draft)
    (hres : getCartItem? s cart_id cart_item_id = some ci) :
    updateItem s cart_id cart_item_id q ≠ .error .notFound := by
  have hcid : cart.id = cart_id := by simpa using List.find?_some hc
  subst hcid
  intro h
  simp only [updateItem, hc, hd, hres] at h
  rw [if_neg (by simp)] at h
  repeat' split at h
  all_goals simp at h

/-- C10: on a draft cart, `update_item` fails NotFound exactly when the
identifier is neither a cart item id belonging to the cart nor an
item_id of an item in the cart; and when it is not a cart item id of the
cart but matches the item_id of some row of the cart, `update_item`
mutates that row (here: quantity 0 removes it and restores its stock). -/
theorem updateItem_notFound_only_without_fallback (s : St)
    (cart_id cart_item_id : ℕ) (cart : Cart) (q : ℚ)
    (hc : findCart? s cart_id = some cart)
    (hd : cart.status = CartStatus.draft)
    (hids : (s.cart_items.map CartItem.id).Nodup) :
    (updateItem s cart_id cart_item_id q = .error .notFound ↔
      (∀ r ∈ s.cart_items, ¬(r.id = cart_item_id ∧ r.cart_id = cart_id)) ∧
      (∀ r ∈ s.cart_items, ¬(r.cart_id = cart_id ∧ r.item_id = cart_item_id))) ∧
    (∀ ci, (∀ r ∈ s.cart_items, ¬(r.id = cart_item_id ∧ r.cart_id = cart_id)) →
      findCartItemByCartAndItem? s cart_id cart_item_id = some ci →
      updateItem s cart_id cart_item_id 0 =
        .ok { adjustQuantity s ci.item_id ci.quantity with
              cart_items := s.cart_items.filter (fun r => !(r.id == ci.id)) }) := by
  have hcid : cart.id = cart_id := by simpa using List.find?_some hc
  subst hcid
  constructor
  · rw [← getCartItem?_eq_none_iff s cart.id cart_item_id hids]
    cases hres : getCartItem? s cart.id cart_item_id with
    | none =>
      constructor
      · intro _
        rfl
      · intro _
        simp [updateItem, hc, hd, hres]
    | some ci =>
      constructor
      · intro h
        exact absurd h
          (updateItem_resolved_ne_notFound s cart.id cart_item_id cart ci q
            hc hd hres)
      · intro h
        exact absurd h (by simp)
  · intro ci hA hfb
    have hby : getCartItem? s cart.id cart_item_id = some ci := by
      unfold getCartItem?
      cases hid : findCartItemById? s cart_item_id with
      | none => exact hfb
      | some r =>
        dsimp only
        have hrmem : r ∈ s.cart_items := List.mem_of_find?_eq_some hid
        have hrid : r.id = cart_item_id := by
          have := List.find?_some hid
          simpa using this
        have hrc : ¬ (r.cart_id == cart.id) = true := by
          simp only [beq_iff_eq]
          exact fun hco => hA r hrmem ⟨hrid, hco⟩
        rw [if_neg hrc]
        exact hfb
    simp [updateItem, hc, hd, hby, adjustQuantity]

/-- Witness for C10 at the concrete state: in draft cart 1, identifier 1
is both a cart item id and resolvable; identifier 99 matches nothing. -/
theorem updateItem_notFound_only_without_fallback_witness :
    (updateItem exSt 1 99 1 = .error .notFound ↔
      (∀ r ∈ exSt.cart_items, ¬(r.id = 99 ∧ r.cart_id = 1)) ∧
      (∀ r ∈ exSt.cart_items, ¬(r.cart_id = 1 ∧ r.item_id = 99))) ∧
    (∀ ci, (∀ r ∈ exSt.cart_items, ¬(r.id = 99 ∧ r.cart_id = 1)) →
      findCartItemByCartAndItem? exSt 1 99 = some ci →
      updateItem exSt 1 99 0 =
        .ok { adjustQuantity exSt ci.item_id ci.quantity with
              cart_items := exSt.cart_items.filter (fun r => !(r.id == ci.id)) }) :=
  updateItem_notFound_only_without_fallback exSt 1 99
    ⟨1, some "7", CartStatus.draft, 3⟩ 1 rfl rfl (by simp [exSt])

/-! ## Cart operation sequences

Each HTTP request runs one service call in a transaction that commits on
success and rolls back on `HTTPException`
(`backend/db/database.py::get_db`), so a failed operation leaves the
state unchanged. -/

/-- One cart-item mutation request, with the payload fields of
`CartItemCreate` / `CartItemUpdate` / `CartItemReturn`. -/
inductive CartOp where
  | add (cart_id item_id : ℕ) (quantity : ℚ)
  | update (cart_id cart_item_id : ℕ) (quantity : ℚ)
  | ret (cart_id cart_item_id : ℕ) (quantity? : Option ℚ)
  | clear (cart_id : ℕ)
deriving Repr, DecidableEq

/-- Commit on success, roll the transaction back on error. -/
def commitOrRollback (s : St) : Except Err St → St
  | .ok s' => s'
  | .error _ => s

/-- Dispatch one request. -/
def applyCartOp (s : St) : CartOp → St
  | .add c i q => commitOrRollback s (addItem s c i q)
  | .update c ci q => commitOrRollback s (updateItem s c ci q)
  | .ret c ci q? => commitOrRollback s (returnItem s c ci q?)
  | .clear c => commitOrRollback s (clearCart s c)

/-- Run a sequence of requests. -/
def applyCartOps (s : St) (ops : List CartOp) : St :=
  ops.foldl applyCartOp s

/-- Pydantic payload validation (`backend/schemas/cart.py`):
`CartItemCreate.quantity` is `gt=0`, `CartItemUpdate.quantity` is
`ge=0`, `CartItemReturn.quantity` is `gt=0` when provided. -/
def ValidOp : CartOp → Prop
  | .add _ _ q => 0 < q
  | .update _ _ q => 0 ≤ q
  | .ret _ _ q? => ∀ q, q? = some q → 0 < q
  | .clear _ => True

/-- Every stock entry has non-negative quantity (the
`CHECK(quantity >= 0)` column constraint). -/
def StockNonneg (s : St) : Prop := ∀ e ∈ s.stocks, 0 ≤ e.quantity

/-- Every cart item has non-negative quantity. -/
def ItemsNonneg (s : St) : Prop := ∀ r ∈ s.cart_items, 0 ≤ r.quantity

/-- `stock_entries.item_id` is UNIQUE. -/
def StocksUnique (s : St) : Prop := (s.stocks.map StockEntry.item_id).Nodup

/-- An entry matching the item of a successful stock lookup is the found
entry itself, by uniqueness of `item_id`. -/
theorem stock_entry_eq_found (s : St) (h3 : StocksUnique s) {i : ℕ}
    {st e : StockEntry} (hf : findStock? s i = some st) (he : e ∈ s.stocks)
    (hei : e.item_id = i) : e = st := by
  apply List.inj_on_of_nodup_map h3 he (List.mem_of_find?_eq_some hf)
  have := List.find?_some hf
  rw [beq_iff_eq] at this
  rw [hei, this]

/-- `adjust_quantity` keeps all stocks non-negative when every affected
entry stays non-negative. -/
theorem adjust_nonneg_of (s : St) (i : ℕ) (δ : ℚ) (h1 : StockNonneg s)
    (hall : ∀ e ∈ s.stocks, e.item_id = i → 0 ≤ e.quantity + δ) :
    StockNonneg (adjustQuantity s i δ) := by
  intro e he
  unfold adjustQuantity at he
  obtain ⟨a, ha, rfl⟩ := List.mem_map.mp he
  by_cases h : (a.item_id == i) = true
  · rw [beq_iff_eq] at h
    simp only [h, beq_self_eq_true, if_true]
    exact hall a ha h
  · rw [if_neg h]
    exact h1 a ha

/-- `adjust_quantity` by a non-negative delta keeps stocks
non-negative. -/
theorem adjust_nonneg_of_nonneg (s : St) (i : ℕ) (δ : ℚ)
    (h1 : StockNonneg s) (hδ : 0 ≤ δ) :
    StockNonneg (adjustQuantity s i δ) :=
  adjust_nonneg_of s i δ h1 (fun e he _ => add_nonneg (h1 e he) hδ)

/-- `adjust_quantity` does not change the `item_id` column. -/
theorem adjust_stocks_item_ids (s : St) (i : ℕ) (δ : ℚ) :
    (adjustQuantity s i δ).stocks.map StockEntry.item_id =
      s.stocks.map StockEntry.item_id := by
  unfold adjustQuantity
  rw [List.map_map]
  apply List.map_congr_left
  intro a _
  dsimp only [Function.comp]
  split <;> rfl

/-- `adjust_quantity` keeps `item_id` uniqueness. -/
theorem adjust_unique (s : St) (i : ℕ) (δ : ℚ) (h3 : StocksUnique s) :
    StocksUnique (adjustQuantity s i δ) := by
  unfold StocksUnique
  rw [adjust_stocks_item_ids]
  exact h3

/-- A cart item resolved by `_get_cart_item` belongs to the table. -/
theorem getCartItem?_mem {s : St} {a b : ℕ} {ci : CartItem}
    (h : getCartItem? s a b = some ci) : ci ∈ s.cart_items := by
  unfold getCartItem? at h
  cases hid : findCartItemById? s b with
  | none =>
    rw [hid] at h
    exact List.mem_of_find?_eq_some h
  | some r =>
    rw [hid] at h
    dsimp only at h
    by_cases hrc : (r.cart_id == a) = true
    · rw [if_pos hrc] at h
      cases h
      exact List.mem_of_find?_eq_some hid
    · rw [if_neg hrc] at h
      exact List.mem_of_find?_eq_some h

/-- Folding stock restores (`clear_cart`'s loop) over any row list with
non-negative quantities keeps all three stock invariants and leaves
every non-stock component unchanged. -/
theorem foldl_adjust_invariants (L : List CartItem) (s : St)
    (h1 : StockNonneg s) (h3 : StocksUnique s)
    (hL : ∀ r ∈ L, 0 ≤ r.quantity) :
    StockNonneg (L.foldl (fun t ci => adjustQuantity t ci.item_id ci.quantity) s) ∧
    StocksUnique (L.foldl (fun t ci => adjustQuantity t ci.item_id ci.quantity) s) ∧
    (L.foldl (fun t ci => adjustQuantity t ci.item_id ci.quantity) s).cart_items
      = s.cart_items := by
  induction L generalizing s with
  | nil => exact ⟨h1, h3, rfl⟩
  | cons r L ih =>
    have hr : 0 ≤ r.quantity := hL r (by simp)
    have h1' := adjust_nonneg_of_nonneg s r.item_id r.quantity h1 hr
    have h3' := adjust_unique s r.item_id r.quantity h3
    have := ih (adjustQuantity s r.item_id r.quantity) h1' h3'
      (fun x hx => hL x (by simp [hx]))
    exact ⟨this.1, this.2.1, this.2.2⟩

/-- The three structural invariants of the stock ledger and cart items
together. -/
def CartInv (s : St) : Prop := StockNonneg s ∧ ItemsNonneg s ∧ StocksUnique s

/-- A successful `add_item` with a positive payload quantity keeps the
invariants: the decrement was availability-checked. -/
theorem addItem_ok_inv (s : St) (c i : ℕ) (q : ℚ) (hq : 0 < q)
    (hinv : CartInv s) :
    ∀ s', addItem s c i q = .ok s' → CartInv s' := by
  obtain ⟨h1, h2, h3⟩ := hinv
  intro s' h
  unfold addItem at h
  cases hfc : findCart? s c with
  | none => rw [hfc] at h; exact absurd h (by simp)
  | some cart =>
    rw [hfc] at h
    dsimp only at h
    by_cases hst : cart.status ≠ CartStatus.draft
    · rw [if_pos hst] at h; exact absurd h (by simp)
    · rw [if_neg hst] at h
      cases hfi : findItem? s i with
      | none => rw [hfi] at h; exact absurd h (by simp)
      | some item =>
        rw [hfi] at h
        dsimp only at h
        cases hfs : findStock? s item.id with
        | none => rw [hfs] at h; exact absurd h (by simp)
        | some stock =>
          rw [hfs] at h
          dsimp only at h
          by_cases hdup :
              (findCartItemByCartAndItem? s cart.id item.id).isSome = true
          · rw [if_pos hdup] at h; exact absurd h (by simp)
          · rw [if_neg hdup] at h
            by_cases hqs : q > stock.quantity
            · rw [if_pos hqs] at h; exact absurd h (by simp)
            · rw [if_neg hqs] at h
              have hs' := (Except.ok.injEq _ _).mp h
              subst hs'
              refine ⟨?_, ?_, ?_⟩
              · apply adjust_nonneg_of _ _ _ h1
                intro e he hei
                have he' : e ∈ s.stocks := he
                have : e = stock := stock_entry_eq_found s h3 hfs he' hei
                subst this
                have : q ≤ e.quantity := not_lt.mp hqs
                linarith
              · intro r hr
                rcases List.mem_append.mp hr with hold | hnew
                · exact h2 r hold
                · rw [List.mem_singleton] at hnew
                  subst hnew
                  exact le_of_lt hq
              · exact adjust_unique _ _ _ h3

/-- A successful `update_item` with a non-negative payload quantity
keeps the invariants. -/
theorem updateItem_ok_inv (s : St) (c ciid : ℕ) (q : ℚ) (hq : 0 ≤ q)
    (hinv : CartInv s) :
    ∀ s', updateItem s c ciid q = .ok s' → CartInv s' := by
  obtain ⟨h1, h2, h3⟩ := hinv
  intro s' h
  unfold updateItem at h
  cases hfc : findCart? s c with
  | none => rw [hfc] at h; exact absurd h (by simp)
  | some cart =>
    rw [hfc] at h
    dsimp only at h
    by_cases hst : cart.status ≠ CartStatus.draft
    · rw [if_pos hst] at h; exact absurd h (by simp)
    · rw [if_neg hst] at h
      cases hres : getCartItem? s cart.id ciid with
      | none => rw [hres] at h; exact absurd h (by simp)
      | some ci =>
        rw [hres] at h
        dsimp only at h
        have hcimem : ci ∈ s.cart_items := getCartItem?_mem hres
        have hciq : 0 ≤ ci.quantity := h2 ci hcimem
        by_cases hz : q = 0
        · rw [if_pos hz] at h
          have hs' := (Except.ok.injEq _ _).mp h
          subst hs'
          refine ⟨?_, ?_, ?_⟩
          · exact adjust_nonneg_of_nonneg _ _ _ h1 hciq
          · intro r hr
            exact h2 r (List.mem_of_mem_filter hr)
          · exact adjust_unique _ _ _ h3
        · rw [if_neg hz] at h
          by_cases hdelta : q - ci.quantity > 0
          · rw [if_pos hdelta] at h
            cases hfs : findStock? s ci.item_id with
            | none => rw [hfs] at h; exact absurd h (by simp)
            | some stock =>
              rw [hfs] at h
              dsimp only at h
              by_cases hgt : q - ci.quantity > stock.quantity
              · rw [if_pos hgt] at h; exact absurd h (by simp)
              · rw [if_neg hgt] at h
                have hs' := (Except.ok.injEq _ _).mp h
                subst hs'
                refine ⟨?_, ?_, ?_⟩
                · apply adjust_nonneg_of _ _ _ (fun e he => h1 e he)
                  intro e he hei
                  have he' : e ∈ s.stocks := he
                  have heq : e = stock := stock_entry_eq_found s h3 hfs he' hei
                  subst heq
                  have hle : q - ci.quantity ≤ e.quantity := not_lt.mp hgt
                  linarith
                · intro r hr
                  obtain ⟨a, ha, rfl⟩ := List.mem_map.mp hr
                  by_cases hid : (a.id == ci.id) = true
                  · rw [if_pos hid]; exact hq
                  · rw [if_neg hid]; exact h2 a ha
                · exact adjust_unique _ _ _ h3
          · rw [if_neg hdelta] at h
            have hs' := (Except.ok.injEq _ _).mp h
            subst hs'
            refine ⟨?_, ?_, ?_⟩
            · apply adjust_nonneg_of_nonneg _ _ _ (fun e he => h1 e he)
              have hle : q - ci.quantity ≤ 0 := not_lt.mp hdelta
              linarith
            · intro r hr
              obtain ⟨a, ha, rfl⟩ := List.mem_map.mp hr
              by_cases hid : (a.id == ci.id) = true
              · rw [if_pos hid]; exact hq
              · rw [if_neg hid]; exact h2 a ha
            · exact adjust_unique _ _ _ h3

/-- A successful `return_item` keeps the invariants: the guards enforce
`0 < returned ≤ held`. -/
theorem returnItem_ok_inv (s : St) (c ciid : ℕ) (q? : Option ℚ)
    (hinv : CartInv s) :
    ∀ s', returnItem s c ciid q? = .ok s' → CartInv s' := by
  obtain ⟨h1, h2, h3⟩ := hinv
  intro s' h
  unfold returnItem at h
  cases hfc : findCart? s c with
  | none => rw [hfc] at h; exact absurd h (by simp)
  | some cart =>
    rw [hfc] at h
    dsimp only at h
    by_cases hst : cart.status ≠ CartStatus.draft
    · rw [if_pos hst] at h; exact absurd h (by simp)
    · rw [if_neg hst] at h
      cases hci : findCartItemById? s ciid with
      | none => rw [hci] at h; exact absurd h (by simp)
      | some ci =>
        rw [hci] at h
        dsimp only at h
        by_cases hb : ci.cart_id ≠ c
        · rw [if_pos hb] at h; exact absurd h (by simp)
        · rw [if_neg hb] at h
          by_cases hr0 : q?.getD ci.quantity ≤ 0
          · rw [if_pos hr0] at h; exact absurd h (by simp)
          · rw [if_neg hr0] at h
            by_cases hrg : q?.getD ci.quantity > ci.quantity
            · rw [if_pos hrg] at h; exact absurd h (by simp)
            · rw [if_neg hrg] at h
              have hret : 0 < q?.getD ci.quantity := not_le.mp hr0
              have hretle : q?.getD ci.quantity ≤ ci.quantity := not_lt.mp hrg
              by_cases hnz : ci.quantity - q?.getD ci.quantity = 0
              · rw [if_pos hnz] at h
                have hs' := (Except.ok.injEq _ _).mp h
                subst hs'
                refine ⟨?_, ?_, ?_⟩
                · exact adjust_nonneg_of_nonneg _ _ _ h1 (le_of_lt hret)
                · intro r hr
                  exact h2 r (List.mem_of_mem_filter hr)
                · exact adjust_unique _ _ _ h3
              · rw [if_neg hnz] at h
                have hs' := (Except.ok.injEq _ _).mp h
                subst hs'
                refine ⟨?_, ?_, ?_⟩
                · exact adjust_nonneg_of_nonneg _ _ _ h1 (le_of_lt hret)
                · intro r hr
                  obtain ⟨a, ha, rfl⟩ := List.mem_map.mp hr
                  by_cases hid : (a.id == ci.id) = true
                  · rw [if_pos hid]
                    show 0 ≤ ci.quantity - q?.getD ci.quantity
                    linarith
                  · rw [if_neg hid]; exact h2 a ha
                · exact adjust_unique _ _ _ h3

/-- A successful `clear_cart` keeps the invariants: it only restores
held (non-negative) quantities. -/
theorem clearCart_ok_inv (s : St) (c : ℕ) (hinv : CartInv s) :
    ∀ s', clearCart s c = .ok s' → CartInv s' := by
  obtain ⟨h1, h2, h3⟩ := hinv
  intro s' h
  unfold clearCart at h
  cases hfc : findCart? s c with
  | none => rw [hfc] at h; exact absurd h (by simp)
  | some cart =>
    rw [hfc] at h
    dsimp only at h
    by_cases hst : cart.status ≠ CartStatus.draft
    · rw [if_pos hst] at h; exact absurd h (by simp)
    · rw [if_neg hst] at h
      have hfold := foldl_adjust_invariants (listCartItems s cart.id) s h1 h3
        (fun r hr => h2 r (List.mem_of_mem_filter hr))
      have hs' := (Except.ok.injEq _ _).mp h
      subst hs'
      refine ⟨hfold.1, ?_, hfold.2.1⟩
      intro r hr
      have hmem := List.mem_of_mem_filter hr
      rw [hfold.2.2] at hmem
      exact h2 r hmem

/-- One validated request keeps the invariants (a failed request rolls
back). -/
theorem applyCartOp_inv (s : St) (op : CartOp) (hv : ValidOp op)
    (hinv : CartInv s) : CartInv (applyCartOp s op) := by
  cases op with
  | add c i q =>
    show CartInv (commitOrRollback s (addItem s c i q))
    cases hrun : addItem s c i q with
    | ok s' => exact addItem_ok_inv s c i q hv hinv s' hrun
    | error e => exact hinv
  | update c ci q =>
    show CartInv (commitOrRollback s (updateItem s c ci q))
    cases hrun : updateItem s c ci q with
    | ok s' => exact updateItem_ok_inv s c ci q hv hinv s' hrun
    | error e => exact hinv
  | ret c ci q? =>
    show CartInv (commitOrRollback s (returnItem s c ci q?))
    cases hrun : returnItem s c ci q? with
    | ok s' => exact returnItem_ok_inv s c ci q? hinv s' hrun
    | error e => exact hinv
  | clear c =>
    show CartInv (commitOrRollback s (clearCart s c))
    cases hrun : clearCart s c with
    | ok s' => exact clearCart_ok_inv s c hinv s' hrun
    | error e => exact hinv

/-- Validated request sequences keep the invariants. -/
theorem applyCartOps_inv (ops : List CartOp) (s : St)
    (hv : ∀ op ∈ ops, ValidOp op) (hinv : CartInv s) :
    CartInv (applyCartOps s ops) := by
  induction ops generalizing s with
  | nil => exact hinv
  | cons op ops ih =>
    exact ih (applyCartOp s op) (fun o ho => hv o (by simp [ho]))
      (applyCartOp_inv s op (hv op (by simp)) hinv)

/-! ## C3: no oversell, stock never negative -/

/-- C3: `add_item` fails with Conflict whenever the requested quantity
exceeds on-hand stock; `update_item` fails with Conflict whenever the
positive delta (new minus old quantity) exceeds on-hand stock; and no
sequence of validated cart operations ever drives a stock entry's
quantity negative. -/
theorem no_oversell_and_stock_never_negative :
    (∀ (s : St) (cart_id item_id : ℕ) (q : ℚ) (cart : Cart)
        (item : CatalogItem) (stock : StockEntry),
      findCart? s cart_id = some cart → cart.status = CartStatus.draft →
      findItem? s item_id = some item →
      findStock? s item.id = some stock →
      stock.quantity < q →
      addItem s cart_id item_id q = .error .conflict) ∧
    (∀ (s : St) (cart_id ci_id : ℕ) (q : ℚ) (cart : Cart) (ci : CartItem)
        (stock : StockEntry),
      findCart? s cart_id = some cart → cart.status = CartStatus.draft →
      getCartItem? s cart.id ci_id = some ci →
      0 ≤ ci.quantity → 0 < q - ci.quantity →
      findStock? s ci.item_id = some stock →
      stock.quantity < q - ci.quantity →
      updateItem s cart_id ci_id q = .error .conflict) ∧
    (∀ (ops : List CartOp) (s : St), (∀ op ∈ ops, ValidOp op) →
      CartInv s → StockNonneg (applyCartOps s ops)) := by
  refine ⟨?_, ?_, ?_⟩
  · intro s cart_id item_id q cart item stock hfc hst hfi hfs hlt
    unfold addItem
    rw [hfc]
    dsimp only
    rw [if_neg (by simp [hst]), hfi]
    dsimp only
    rw [hfs]
    dsimp only
    by_cases hdup : (findCartItemByCartAndItem? s cart.id item.id).isSome = true
    · rw [if_pos hdup]
    · rw [if_neg hdup, if_pos hlt]
  · intro s cart_id ci_id q cart ci stock hfc hst hres hciq hdelta hfs hgt
    unfold updateItem
    rw [hfc]
    dsimp only
    rw [if_neg (by simp [hst]), hres]
    dsimp only
    have hz : ¬ q = 0 := by
      intro hq0
      rw [hq0] at hdelta
      linarith
    rw [if_neg hz, if_pos hdelta, hfs]
    dsimp only
    rw [if_pos hgt]
  · intro ops s hv hinv
    exact (applyCartOps_inv ops s hv hinv).1

/-- Witness for C3 at the concrete state: stock for item 1 is 5, adding
6 conflicts, growing the existing cart line from 2 to 8 conflicts
(delta 6 > 5), and a clear-then-nothing sequence keeps stock
non-negative. -/
theorem no_oversell_and_stock_never_negative_witness :
    addItem exSt 1 1 6 = .error .conflict ∧
    updateItem exSt 1 1 8 = .error .conflict ∧
    StockNonneg (applyCartOps exSt [CartOp.clear 1]) := by
  refine ⟨?_, ?_, ?_⟩
  · exact no_oversell_and_stock_never_negative.1 exSt 1 1 6
      ⟨1, some "7", CartStatus.draft, 3⟩ ⟨1, "apple", "SKU1", 2, 0, 0⟩
      ⟨1, 5⟩ rfl rfl rfl rfl (by norm_num)
  · exact no_oversell_and_stock_never_negative.2.1 exSt 1 1 8
      ⟨1, some "7", CartStatus.draft, 3⟩ ⟨1, 1, 1, 2⟩
      ⟨1, 5⟩ rfl rfl rfl (by norm_num) (by norm_num) rfl (by norm_num)
  · exact no_oversell_and_stock_never_negative.2.2 [CartOp.clear 1] exSt
      (by intro op hop; simp at hop; subst hop; trivial)
      ⟨by intro e he; simp [exSt] at he; rw [he]; norm_num,
       by intro r hr; simp [exSt] at hr; rw [hr]; norm_num,
       by simp [StocksUnique, exSt]⟩

/-! ## C2: stock conservation

The conserved quantity per item: on-hand stock plus the item's
quantities across all draft carts' cart items. -/

/-- Sum of stock quantities recorded for item `j` (one entry when the
UNIQUE constraint holds). -/
def stockSum (s : St) (j : ℕ) : ℚ :=
  (s.stocks.map (fun e => if e.item_id == j then e.quantity else 0)).sum

/-- Whether a cart id denotes a draft cart. -/
def isDraftCartIn (carts : List Cart) (cart_id : ℕ) : Bool :=
  match carts.find? (fun c => c.id == cart_id) with
  | some c => c.status == CartStatus.draft
  | none => false

/-- Contribution of one cart item row to item `j`'s live draft-cart
quantity. -/
def rowContrib (carts : List Cart) (j : ℕ) (r : CartItem) : ℚ :=
  if r.item_id == j && isDraftCartIn carts r.cart_id then r.quantity else 0

/-- Item `j`'s total quantity across all draft carts. -/
def draftCartQty (s : St) (j : ℕ) : ℚ :=
  (s.cart_items.map (rowContrib s.carts j)).sum

/-- The conserved quantity of C2. -/
def conservedQty (s : St) (j : ℕ) : ℚ := stockSum s j + draftCartQty s j

/-- Structural well-formedness used by the conservation argument:
unique stock entries, primary-key cart item ids with a fresh counter,
and a stock entry behind every cart item (§3: a stock entry is created
before an item can enter a cart). -/
def CartWF (s : St) : Prop :=
  StocksUnique s ∧
  (s.cart_items.map CartItem.id).Nodup ∧
  (∀ r ∈ s.cart_items, r.id < s.next_cart_item_id) ∧
  (∀ r ∈ s.cart_items, (findStock? s r.item_id).isSome)

/-- Whether a stock lookup succeeds depends only on the `item_id`
column, which `adjust_quantity` never changes. -/
theorem findStock?_isSome_adjust (s : St) (i k : ℕ) (δ : ℚ) :
    (findStock? (adjustQuantity s i δ) k).isSome =
      (findStock? s k).isSome := by
  unfold findStock? adjustQuantity
  rw [find?_map_of_preserve (fun e : StockEntry => e.item_id == k)
    (fun e => if e.item_id == i then { e with quantity := e.quantity + δ }
      else e) s.stocks
    (fun e => by by_cases h : (e.item_id == i) = true <;> simp [h])]
  cases s.stocks.find? (fun e => e.item_id == k) <;> rfl

/-- Effect of `adjust_quantity` on the per-item sum over a bare entry
list: when the entry exists and entries are unique, the sum for that
item moves by the delta and every other item's sum is unchanged. -/
theorem entrySum_adjust (l : List StockEntry) (i j : ℕ) (δ : ℚ)
    (h3 : (l.map StockEntry.item_id).Nodup)
    (hf : (l.find? (fun e => e.item_id == i)).isSome) :
    ((l.map (fun e =>
        if e.item_id == i then { e with quantity := e.quantity + δ }
        else e)).map
      (fun e => if e.item_id == j then e.quantity else 0)).sum =
      (l.map (fun e => if e.item_id == j then e.quantity else 0)).sum +
        (if i = j then δ else 0) := by
  induction l with
  | nil => simp at hf
  | cons e l ih =>
    rw [List.map_cons, List.nodup_cons] at h3
    by_cases he : (e.item_id == i) = true
    · have hei : e.item_id = i := by simpa using he
      have htail : l.map (fun e =>
          if e.item_id == i then { e with quantity := e.quantity + δ }
          else e) = l := by
        rw [show l.map (fun e =>
            if e.item_id == i then { e with quantity := e.quantity + δ }
            else e) = l.map id from ?_, List.map_id]
        apply List.map_congr_left
        intro a ha
        have : ¬ a.item_id = i := fun hai => h3.1 (by
          rw [hei, ← hai]
          exact List.mem_map.mpr ⟨a, ha, rfl⟩)
        simp [this]
      rw [List.map_cons, if_pos he, htail, List.map_cons, List.sum_cons,
        List.map_cons, List.sum_cons]
      by_cases hij : i = j
      · subst hij
        rw [if_pos he, if_pos he, if_pos rfl]
        dsimp only
        ring
      · have hnej : ¬ (e.item_id == j) = true := by
          simp only [beq_iff_eq, hei]
          exact hij
        rw [if_neg hnej, if_neg hnej, if_neg hij]
        ring
    · have hfalse : (e.item_id == i) = false := by simpa using he
      have hf' : (List.find? (fun e => e.item_id == i) l).isSome = true := by
        simpa [List.find?_cons, hfalse] using hf
      have hrec := ih h3.2 hf'
      rw [List.map_cons, if_neg he, List.map_cons, List.sum_cons, hrec,
        List.map_cons, List.sum_cons]
      ring

/-- `stockSum` under `adjust_quantity`. -/
theorem stockSum_adjust (s : St) (i j : ℕ) (δ : ℚ) (h3 : StocksUnique s)
    (hf : (findStock? s i).isSome) :
    stockSum (adjustQuantity s i δ) j =
      stockSum s j + (if i = j then δ else 0) :=
  entrySum_adjust s.stocks i j δ h3 hf

/-- Removing the (unique) row with a given id subtracts exactly its
contribution from a row sum. -/
theorem rowFilterSum (l : List CartItem) (ci : CartItem)
    (hids : (l.map CartItem.id).Nodup) (hmem : ci ∈ l) (g : CartItem → ℚ) :
    ((l.filter (fun r => !(r.id == ci.id))).map g).sum =
      (l.map g).sum - g ci := by
  induction l with
  | nil => cases hmem
  | cons r l ih =>
    rw [List.map_cons, List.nodup_cons] at hids
    rcases List.mem_cons.mp hmem with rfl | hmem'
    · have hkeep : l.filter (fun r' => !(r'.id == ci.id)) = l := by
        apply List.filter_eq_self.mpr
        intro a ha
        have : ¬ a.id = ci.id := fun hai => hids.1 (by
          rw [← hai]
          exact List.mem_map.mpr ⟨a, ha, rfl⟩)
        simpa using this
      rw [List.filter_cons, if_neg (by simp), hkeep, List.map_cons,
        List.sum_cons]
      ring
    · have hne : ¬ r.id = ci.id := fun hri => hids.1 (by
        rw [hri]
        exact List.mem_map.mpr ⟨ci, hmem', rfl⟩)
      rw [List.filter_cons, if_pos (by simpa using hne), List.map_cons,
        List.sum_cons, List.map_cons, List.sum_cons, ih hids.2 hmem']
      ring

/-- Updating the (unique) row with a given id replaces exactly its
contribution in a row sum. -/
theorem rowMapSum (l : List CartItem) (ci : CartItem)
    (hids : (l.map CartItem.id).Nodup) (hmem : ci ∈ l)
    (u : CartItem → CartItem) (g : CartItem → ℚ) :
    ((l.map (fun r => if r.id == ci.id then u r else r)).map g).sum =
      (l.map g).sum - g ci + g (u ci) := by
  induction l with
  | nil => cases hmem
  | cons r l ih =>
    rw [List.map_cons, List.nodup_cons] at hids
    rcases List.mem_cons.mp hmem with rfl | hmem'
    · have htail : l.map (fun r' => if r'.id == ci.id then u r' else r') =
          l := by
        rw [show l.map (fun r' => if r'.id == ci.id then u r' else r') =
            l.map id from ?_, List.map_id]
        apply List.map_congr_left
        intro a ha
        have : ¬ a.id = ci.id := fun hai => hids.1 (by
          rw [← hai]
          exact List.mem_map.mpr ⟨a, ha, rfl⟩)
        simp [this]
      rw [List.map_cons, if_pos (by simp), htail, List.map_cons,
        List.sum_cons, List.map_cons, List.sum_cons]
      ring
    · have hne : ¬ r.id = ci.id := fun hri => hids.1 (by
        rw [hri]
        exact List.mem_map.mpr ⟨ci, hmem', rfl⟩)
      rw [List.map_cons, if_neg (by simpa using hne), List.map_cons,
        List.sum_cons, List.map_cons, List.sum_cons, ih hids.2 hmem']
      ring

/-- Deleting all rows of one cart splits a row sum into kept and removed
parts. -/
theorem rowFilterCartSum (l : List CartItem) (cid : ℕ) (g : CartItem → ℚ) :
    ((l.filter (fun r => !(r.cart_id == cid))).map g).sum =
      (l.map g).sum - ((l.filter (fun r => r.cart_id == cid)).map g).sum := by
  induction l with
  | nil => simp
  | cons r l ih =>
    by_cases h : (r.cart_id == cid) = true
    · rw [List.filter_cons, if_neg (by simp [h]), List.filter_cons,
        if_pos h, List.map_cons, List.sum_cons, List.map_cons,
        List.sum_cons, ih]
      ring
    · rw [List.filter_cons, if_pos (by simpa using h), List.filter_cons,
        if_neg h, List.map_cons, List.sum_cons, List.map_cons,
        List.sum_cons, ih]
      ring

/-- A cart item resolved by `_get_cart_item` belongs to the requested
cart. -/
theorem getCartItem?_cart_id {s : St} {a b : ℕ} {ci : CartItem}
    (h : getCartItem? s a b = some ci) : ci.cart_id = a := by
  unfold getCartItem? at h
  cases hid : findCartItemById? s b with
  | none =>
    rw [hid] at h
    have := List.find?_some h
    simp at this
    exact this.1
  | some r =>
    rw [hid] at h
    dsimp only at h
    by_cases hrc : (r.cart_id == a) = true
    · rw [if_pos hrc] at h
      cases h
      simpa using hrc
    · rw [if_neg hrc] at h
      have := List.find?_some h
      simp at this
      exact this.1

/-- A cart found in draft status makes its id a draft cart id. -/
theorem isDraftCartIn_of_findCart {s : St} {cid : ℕ} {cart : Cart}
    (h : findCart? s cid = some cart) (hd : cart.status = CartStatus.draft) :
    isDraftCartIn s.carts cart.id = true := by
  have hcid : cart.id = cid := by simpa using List.find?_some h
  unfold isDraftCartIn
  rw [hcid, show s.carts.find? (fun c => c.id == cid) = some cart from h]
  simp [hd]

/-- Whether a stock lookup succeeds is a function of the `item_id`
column alone. -/
theorem entry_find_isSome (l : List StockEntry) (k : ℕ) :
    (l.find? (fun e => e.item_id == k)).isSome =
      (l.map StockEntry.item_id).any (fun x => x == k) := by
  induction l with
  | nil => rfl
  | cons e l ih =>
    by_cases he : (e.item_id == k) = true
    · simp [List.find?_cons, he]
    · have hfalse : (e.item_id == k) = false := by simpa using he
      simp [List.find?_cons, hfalse, ih]

/-- Two states with the same stock `item_id` column agree on which
lookups succeed. -/
theorem findStock?_isSome_of_item_ids {s t : St}
    (h : t.stocks.map StockEntry.item_id = s.stocks.map StockEntry.item_id)
    (k : ℕ) : (findStock? t k).isSome = (findStock? s k).isSome := by
  unfold findStock?
  rw [entry_find_isSome, entry_find_isSome, h]

/-- The restore loop of `clear_cart` does not change carts, cart items,
counters or the stock `item_id` column. -/
theorem foldl_adjust_frame (L : List CartItem) (s : St) :
    (L.foldl (fun t ci => adjustQuantity t ci.item_id ci.quantity) s).carts
      = s.carts ∧
    (L.foldl (fun t ci => adjustQuantity t ci.item_id ci.quantity) s).cart_items
      = s.cart_items ∧
    (L.foldl (fun t ci => adjustQuantity t ci.item_id ci.quantity) s).stocks.map
        StockEntry.item_id = s.stocks.map StockEntry.item_id ∧
    (L.foldl (fun t ci =>
        adjustQuantity t ci.item_id ci.quantity) s).next_cart_item_id
      = s.next_cart_item_id := by
  induction L generalizing s with
  | nil => exact ⟨rfl, rfl, rfl, rfl⟩
  | cons r L ih =>
    have := ih (adjustQuantity s r.item_id r.quantity)
    refine ⟨this.1, this.2.1, ?_, this.2.2.2⟩
    rw [List.foldl_cons, this.2.2.1, adjust_stocks_item_ids]

/-- The restore loop of `clear_cart` adds each restored quantity to its
item's stock sum. -/
theorem foldl_adjust_stockSum (L : List CartItem) (s : St) (j : ℕ)
    (h3 : StocksUnique s) (hcov : ∀ r ∈ L, (findStock? s r.item_id).isSome) :
    stockSum (L.foldl (fun t ci => adjustQuantity t ci.item_id ci.quantity) s) j
      = stockSum s j +
        (L.map (fun r => if r.item_id == j then r.quantity else 0)).sum := by
  induction L generalizing s with
  | nil => simp
  | cons r L ih =>
    have h3' : StocksUnique (adjustQuantity s r.item_id r.quantity) := by
      unfold StocksUnique
      rw [adjust_stocks_item_ids]
      exact h3
    have hcov' : ∀ x ∈ L,
        (findStock? (adjustQuantity s r.item_id r.quantity) x.item_id).isSome := by
      intro x hx
      rw [findStock?_isSome_adjust]
      exact hcov x (by simp [hx])
    rw [List.foldl_cons, ih (adjustQuantity s r.item_id r.quantity) h3' hcov',
      stockSum_adjust s r.item_id j r.quantity h3 (hcov r (by simp)),
      List.map_cons, List.sum_cons]
    by_cases hij : r.item_id = j
    · rw [if_pos hij, if_pos (by simpa using hij)]
      ring
    · rw [if_neg hij, if_neg (by simpa using hij)]
      ring

/-- Success shape of `add_item`: the guards passed and the state gained
one cart item row and lost that much stock. -/
theorem addItem_ok_shape (s : St) (c i : ℕ) (q : ℚ) (s' : St)
    (h : addItem s c i q = .ok s') :
    ∃ cart item stock,
      findCart? s c = some cart ∧ cart.status = CartStatus.draft ∧
      findItem? s i = some item ∧ findStock? s item.id = some stock ∧
      ¬ q > stock.quantity ∧
      s' = adjustQuantity
        { s with
          cart_items := s.cart_items ++
            [⟨s.next_cart_item_id, cart.id, item.id, q⟩],
          next_cart_item_id := s.next_cart_item_id + 1 } item.id (-q) := by
  unfold addItem at h
  cases hfc : findCart? s c with
  | none => rw [hfc] at h; exact absurd h (by simp)
  | some cart =>
    rw [hfc] at h
    dsimp only at h
    by_cases hst : cart.status ≠ CartStatus.draft
    · rw [if_pos hst] at h; exact absurd h (by simp)
    · rw [if_neg hst] at h
      cases hfi : findItem? s i with
      | none => rw [hfi] at h; exact absurd h (by simp)
      | some item =>
        rw [hfi] at h
        dsimp only at h
        cases hfs : findStock? s item.id with
        | none => rw [hfs] at h; exact absurd h (by simp)
        | some stock =>
          rw [hfs] at h
          dsimp only at h
          by_cases hdup :
              (findCartItemByCartAndItem? s cart.id item.id).isSome = true
          · rw [if_pos hdup] at h; exact absurd h (by simp)
          · rw [if_neg hdup] at h
            by_cases hqs : q > stock.quantity
            · rw [if_pos hqs] at h; exact absurd h (by simp)
            · rw [if_neg hqs] at h
              have hs' := (Except.ok.injEq _ _).mp h
              exact ⟨cart, item, stock, rfl, not_ne_iff.mp hst, rfl, hfs,
                hqs, hs'.symm⟩

/-- `add_item` keeps the well-formedness facts and conserves
stock-plus-draft-cart quantity for every item. -/
theorem addItem_ok_conserve (s : St) (c i : ℕ) (q : ℚ) (hW : CartWF s) :
    ∀ s', addItem s c i q = .ok s' →
      CartWF s' ∧ ∀ j, conservedQty s' j = conservedQty s j := by
  intro s' h
  obtain ⟨cart, item, stock, hfc, hst, hfi, hfs, hqs, hshape⟩ :=
    addItem_ok_shape s c i q s' h
  obtain ⟨hW1, hW2, hW3, hW4⟩ := hW
  subst hshape
  have hdraft : isDraftCartIn s.carts cart.id = true :=
    isDraftCartIn_of_findCart hfc hst
  have hfs1 : (findStock? s item.id).isSome := by rw [hfs]; rfl
  constructor
  · refine ⟨?_, ?_, ?_, ?_⟩
    · show StocksUnique _
      unfold StocksUnique
      rw [adjust_stocks_item_ids]
      exact hW1
    · show ((s.cart_items ++
          [(⟨s.next_cart_item_id, cart.id, item.id, q⟩ : CartItem)]).map CartItem.id).Nodup
      rw [List.map_append]
      rw [List.nodup_append]
      refine ⟨hW2, by simp, ?_⟩
      intro a ha hb
      simp only [List.map_cons, List.map_nil, List.mem_singleton] at hb
      obtain ⟨r, hr, rfl⟩ := List.mem_map.mp ha
      exact absurd hb (ne_of_lt (hW3 r hr))
    · intro r hr
      have hr' : r ∈ s.cart_items ++
          [(⟨s.next_cart_item_id, cart.id, item.id, q⟩ : CartItem)] := hr
      rcases List.mem_append.mp hr' with hold | hnew
      · exact lt_trans (hW3 r hold) (by
          show s.next_cart_item_id < s.next_cart_item_id + 1
          omega)
      · rw [List.mem_singleton] at hnew
        subst hnew
        show s.next_cart_item_id < s.next_cart_item_id + 1
        omega
    · intro r hr
      rw [findStock?_isSome_adjust]
      have hr' : r ∈ s.cart_items ++
          [(⟨s.next_cart_item_id, cart.id, item.id, q⟩ : CartItem)] := hr
      rcases List.mem_append.mp hr' with hold | hnew
      · exact hW4 r hold
      · rw [List.mem_singleton] at hnew
        subst hnew
        exact hfs1
  · intro j
    unfold conservedQty
    have hstock : stockSum (adjustQuantity
        { s with
          cart_items := s.cart_items ++
            [(⟨s.next_cart_item_id, cart.id, item.id, q⟩ : CartItem)],
          next_cart_item_id := s.next_cart_item_id + 1 } item.id (-q)) j =
        stockSum s j + (if item.id = j then -q else 0) :=
      stockSum_adjust _ item.id j (-q) hW1 hfs1
    rw [hstock]
    have hdraftq : draftCartQty (adjustQuantity
        { s with
          cart_items := s.cart_items ++
            [(⟨s.next_cart_item_id, cart.id, item.id, q⟩ : CartItem)],
          next_cart_item_id := s.next_cart_item_id + 1 } item.id (-q)) j =
        draftCartQty s j +
          rowContrib s.carts j (⟨s.next_cart_item_id, cart.id, item.id, q⟩ : CartItem) := by
      show ((s.cart_items ++
          [(⟨s.next_cart_item_id, cart.id, item.id, q⟩ : CartItem)]).map
            (rowContrib s.carts j)).sum = _
      rw [List.map_append, List.sum_append]
      unfold draftCartQty
      simp
    rw [hdraftq]
    have hrow : rowContrib s.carts j
        (⟨s.next_cart_item_id, cart.id, item.id, q⟩ : CartItem) =
        if item.id = j then q else 0 := by
      unfold rowContrib
      show (if (item.id == j && isDraftCartIn s.carts cart.id) = true
        then q else 0) = _
      rw [hdraft, Bool.and_true]
      by_cases hij : item.id = j
      · rw [if_pos (by simpa using hij), if_pos hij]
      · rw [if_neg (by simpa using hij), if_neg hij]
    rw [hrow]
    by_cases hij : item.id = j
    · rw [if_pos hij, if_pos hij]; ring
    · rw [if_neg hij, if_neg hij]; ring

/-- Contribution of a row whose cart is draft. -/
theorem rowContrib_draft (carts : List Cart) (j : ℕ) (r : CartItem)
    (hd : isDraftCartIn carts r.cart_id = true) :
    rowContrib carts j r = if r.item_id = j then r.quantity else 0 := by
  unfold rowContrib
  rw [hd, Bool.and_true]
  by_cases hij : r.item_id = j
  · rw [if_pos (by simpa using hij), if_pos hij]
  · rw [if_neg (by simpa using hij), if_neg hij]

/-- Success shape of `update_item`: either the zero-quantity deletion or
the delta update. -/
theorem updateItem_ok_shape (s : St) (c ciid : ℕ) (q : ℚ) (s' : St)
    (h : updateItem s c ciid q = .ok s') :
    ∃ cart ci,
      findCart? s c = some cart ∧ cart.status = CartStatus.draft ∧
      getCartItem? s cart.id ciid = some ci ∧
      ((q = 0 ∧ s' = { adjustQuantity s ci.item_id ci.quantity with
          cart_items := s.cart_items.filter (fun r => !(r.id == ci.id)) }) ∨
       (q ≠ 0 ∧ s' = adjustQuantity
          { s with cart_items := s.cart_items.map (fun r =>
              if r.id == ci.id then { r with quantity := q } else r) }
          ci.item_id (-(q - ci.quantity)))) := by
  unfold updateItem at h
  cases hfc : findCart? s c with
  | none => rw [hfc] at h; exact absurd h (by simp)
  | some cart =>
    rw [hfc] at h
    dsimp only at h
    by_cases hst : cart.status ≠ CartStatus.draft
    · rw [if_pos hst] at h; exact absurd h (by simp)
    · rw [if_neg hst] at h
      cases hres : getCartItem? s cart.id ciid with
      | none => rw [hres] at h; exact absurd h (by simp)
      | some ci =>
        rw [hres] at h
        dsimp only at h
        by_cases hz : q = 0
        · rw [if_pos hz] at h
          have hs' := (Except.ok.injEq _ _).mp h
          exact ⟨cart, ci, rfl, not_ne_iff.mp hst, hres,
            Or.inl ⟨hz, hs'.symm⟩⟩
        · rw [if_neg hz] at h
          by_cases hdelta : q - ci.quantity > 0
          · rw [if_pos hdelta] at h
            cases hfs : findStock? s ci.item_id with
            | none => rw [hfs] at h; exact absurd h (by simp)
            | some stock =>
              rw [hfs] at h
              dsimp only at h
              by_cases hgt : q - ci.quantity > stock.quantity
              · rw [if_pos hgt] at h; exact absurd h (by simp)
              · rw [if_neg hgt] at h
                have hs' := (Except.ok.injEq _ _).mp h
                exact ⟨cart, ci, rfl, not_ne_iff.mp hst, hres,
                  Or.inr ⟨hz, hs'.symm⟩⟩
          · rw [if_neg hdelta] at h
            have hs' := (Except.ok.injEq _ _).mp h
            exact ⟨cart, ci, rfl, not_ne_iff.mp hst, hres,
              Or.inr ⟨hz, hs'.symm⟩⟩

/-- `update_item` keeps the well-formedness facts and conserves
stock-plus-draft-cart quantity for every item. -/
theorem updateItem_ok_conserve (s : St) (c ciid : ℕ) (q : ℚ)
    (hW : CartWF s) :
    ∀ s', updateItem s c ciid q = .ok s' →
      CartWF s' ∧ ∀ j, conservedQty s' j = conservedQty s j := by
  intro s' h
  obtain ⟨cart, ci, hfc, hst, hres, hcase⟩ := updateItem_ok_shape s c ciid q s' h
  obtain ⟨hW1, hW2, hW3, hW4⟩ := hW
  have hcimem : ci ∈ s.cart_items := getCartItem?_mem hres
  have hcicart : ci.cart_id = cart.id := getCartItem?_cart_id hres
  have hdraftci : isDraftCartIn s.carts ci.cart_id = true := by
    rw [hcicart]
    exact isDraftCartIn_of_findCart hfc hst
  have hcov : (findStock? s ci.item_id).isSome := hW4 ci hcimem
  rcases hcase with ⟨hz, rfl⟩ | ⟨hz, rfl⟩
  · constructor
    · refine ⟨?_, ?_, ?_, ?_⟩
      · show ((adjustQuantity s ci.item_id ci.quantity).stocks.map
            StockEntry.item_id).Nodup
        rw [adjust_stocks_item_ids]
        exact hW1
      · show (((s.cart_items.filter
            (fun r => !(r.id == ci.id))).map CartItem.id)).Nodup
        exact hW2.sublist ((List.filter_sublist _).map _)
      · intro r hr
        exact hW3 r (List.mem_of_mem_filter hr)
      · intro r hr
        show (findStock? (adjustQuantity s ci.item_id ci.quantity)
          r.item_id).isSome = true
        rw [findStock?_isSome_adjust]
        exact hW4 r (List.mem_of_mem_filter hr)
    · intro j
      unfold conservedQty
      have hstock : stockSum { adjustQuantity s ci.item_id ci.quantity with
          cart_items := s.cart_items.filter (fun r => !(r.id == ci.id)) } j =
          stockSum s j + (if ci.item_id = j then ci.quantity else 0) :=
        stockSum_adjust s ci.item_id j ci.quantity hW1 hcov
      have hrows : draftCartQty { adjustQuantity s ci.item_id ci.quantity with
          cart_items := s.cart_items.filter (fun r => !(r.id == ci.id)) } j =
          draftCartQty s j - rowContrib s.carts j ci :=
        rowFilterSum s.cart_items ci hW2 hcimem (rowContrib s.carts j)
      rw [hstock, hrows, rowContrib_draft s.carts j ci hdraftci]
      by_cases hij : ci.item_id = j
      · rw [if_pos hij]; ring
      · rw [if_neg hij]; ring
  · constructor
    · refine ⟨?_, ?_, ?_, ?_⟩
      · show ((adjustQuantity { s with
            cart_items := s.cart_items.map (fun r =>
              if r.id == ci.id then { r with quantity := q } else r) }
            ci.item_id (-(q - ci.quantity))).stocks.map
            StockEntry.item_id).Nodup
        rw [adjust_stocks_item_ids]
        exact hW1
      · show (((s.cart_items.map (fun r =>
            if r.id == ci.id then { r with quantity := q } else r)).map
            CartItem.id)).Nodup
        have : (s.cart_items.map (fun r =>
            if r.id == ci.id then { r with quantity := q } else r)).map
            CartItem.id = s.cart_items.map CartItem.id := by
          rw [List.map_map]
          apply List.map_congr_left
          intro a _
          dsimp only [Function.comp]
          split <;> rfl
        rw [this]
        exact hW2
      · intro r hr
        obtain ⟨a, ha, rfl⟩ := List.mem_map.mp hr
        have : ((if a.id == ci.id then { a with quantity := q }
            else a) : CartItem).id = a.id := by
          split <;> rfl
        rw [this]
        exact hW3 a ha
      · intro r hr
        show (findStock? (adjustQuantity { s with
            cart_items := s.cart_items.map (fun r =>
              if r.id == ci.id then { r with quantity := q } else r) }
            ci.item_id (-(q - ci.quantity))) r.item_id).isSome = true
        rw [findStock?_isSome_adjust]
        obtain ⟨a, ha, rfl⟩ := List.mem_map.mp hr
        have : ((if a.id == ci.id then { a with quantity := q }
            else a) : CartItem).item_id = a.item_id := by
          split <;> rfl
        rw [this]
        exact hW4 a ha
    · intro j
      unfold conservedQty
      have hstock : stockSum (adjustQuantity { s with
          cart_items := s.cart_items.map (fun r =>
            if r.id == ci.id then { r with quantity := q } else r) }
          ci.item_id (-(q - ci.quantity))) j =
          stockSum s j + (if ci.item_id = j then -(q - ci.quantity) else 0) :=
        stockSum_adjust _ ci.item_id j _ hW1 hcov
      have hrows : draftCartQty (adjustQuantity { s with
          cart_items := s.cart_items.map (fun r =>
            if r.id == ci.id then { r with quantity := q } else r) }
          ci.item_id (-(q - ci.quantity))) j =
          draftCartQty s j - rowContrib s.carts j ci +
            rowContrib s.carts j { ci with quantity := q } :=
        rowMapSum s.cart_items ci hW2 hcimem _ (rowContrib s.carts j)
      have hu : rowContrib s.carts j { ci with quantity := q } =
          if ci.item_id = j then q else 0 := by
        rw [rowContrib_draft s.carts j ({ ci with quantity := q }) hdraftci]
      rw [hstock, hrows, rowContrib_draft s.carts j ci hdraftci, hu]
      by_cases hij : ci.item_id = j
      · rw [if_pos hij, if_pos hij, if_pos hij]; ring
      · rw [if_neg hij, if_neg hij, if_neg hij]; ring

/-- Success shape of `return_item`: the guards passed and the state
restored the returned quantity, deleting or reducing the row. -/
theorem returnItem_ok_shape (s : St) (c ciid : ℕ) (q? : Option ℚ) (s' : St)
    (h : returnItem s c ciid q? = .ok s') :
    ∃ cart ci,
      findCart? s c = some cart ∧ cart.status = CartStatus.draft ∧
      findCartItemById? s ciid = some ci ∧ ci.cart_id = c ∧
      0 < q?.getD ci.quantity ∧ q?.getD ci.quantity ≤ ci.quantity ∧
      ((ci.quantity - q?.getD ci.quantity = 0 ∧
        s' = { adjustQuantity s ci.item_id (q?.getD ci.quantity) with
          cart_items := s.cart_items.filter (fun r => !(r.id == ci.id)) }) ∨
       (¬ ci.quantity - q?.getD ci.quantity = 0 ∧
        s' = { adjustQuantity s ci.item_id (q?.getD ci.quantity) with
          cart_items := s.cart_items.map (fun r =>
            if r.id == ci.id then
              { r with quantity := ci.quantity - q?.getD ci.quantity }
            else r) })) := by
  unfold returnItem at h
  cases hfc : findCart? s c with
  | none => rw [hfc] at h; exact absurd h (by simp)
  | some cart =>
    rw [hfc] at h
    dsimp only at h
    by_cases hst : cart.status ≠ CartStatus.draft
    · rw [if_pos hst] at h; exact absurd h (by simp)
    · rw [if_neg hst] at h
      cases hci : findCartItemById? s ciid with
      | none => rw [hci] at h; exact absurd h (by simp)
      | some ci =>
        rw [hci] at h
        dsimp only at h
        by_cases hb : ci.cart_id ≠ c
        · rw [if_pos hb] at h; exact absurd h (by simp)
        · rw [if_neg hb] at h
          by_cases hr0 : q?.getD ci.quantity ≤ 0
          · rw [if_pos hr0] at h; exact absurd h (by simp)
          · rw [if_neg hr0] at h
            by_cases hrg : q?.getD ci.quantity > ci.quantity
            · rw [if_pos hrg] at h; exact absurd h (by simp)
            · rw [if_neg hrg] at h
              by_cases hnz : ci.quantity - q?.getD ci.quantity = 0
              · rw [if_pos hnz] at h
                have hs' := (Except.ok.injEq _ _).mp h
                exact ⟨cart, ci, rfl, not_ne_iff.mp hst, rfl,
                  not_ne_iff.mp hb, not_le.mp hr0, not_lt.mp hrg,
                  Or.inl ⟨hnz, hs'.symm⟩⟩
              · rw [if_neg hnz] at h
                have hs' := (Except.ok.injEq _ _).mp h
                exact ⟨cart, ci, rfl, not_ne_iff.mp hst, rfl,
                  not_ne_iff.mp hb, not_le.mp hr0, not_lt.mp hrg,
                  Or.inr ⟨hnz, hs'.symm⟩⟩

/-- `return_item` keeps the well-formedness facts and conserves
stock-plus-draft-cart quantity for every item. -/
theorem returnItem_ok_conserve (s : St) (c ciid : ℕ) (q? : Option ℚ)
    (hW : CartWF s) :
    ∀ s', returnItem s c ciid q? = .ok s' →
      CartWF s' ∧ ∀ j, conservedQty s' j = conservedQty s j := by
  intro s' h
  obtain ⟨cart, ci, hfc, hst, hci, hb, hr0, hrg, hcase⟩ :=
    returnItem_ok_shape s c ciid q? s' h
  obtain ⟨hW1, hW2, hW3, hW4⟩ := hW
  have hcimem : ci ∈ s.cart_items := List.mem_of_find?_eq_some hci
  have hdraftci : isDraftCartIn s.carts ci.cart_id = true := by
    have hcartc : cart.id = c := by simpa using List.find?_some hfc
    rw [hb, ← hcartc]
    exact isDraftCartIn_of_findCart hfc hst
  have hcov : (findStock? s ci.item_id).isSome := hW4 ci hcimem
  rcases hcase with ⟨hnz, rfl⟩ | ⟨hnz, rfl⟩
  · constructor
    · refine ⟨?_, ?_, ?_, ?_⟩
      · show ((adjustQuantity s ci.item_id
            (q?.getD ci.quantity)).stocks.map StockEntry.item_id).Nodup
        rw [adjust_stocks_item_ids]
        exact hW1
      · show (((s.cart_items.filter
            (fun r => !(r.id == ci.id))).map CartItem.id)).Nodup
        exact hW2.sublist ((List.filter_sublist _).map _)
      · intro r hr
        exact hW3 r (List.mem_of_mem_filter hr)
      · intro r hr
        show (findStock? (adjustQuantity s ci.item_id
          (q?.getD ci.quantity)) r.item_id).isSome = true
        rw [findStock?_isSome_adjust]
        exact hW4 r (List.mem_of_mem_filter hr)
    · intro j
      unfold conservedQty
      have hstock : stockSum { adjustQuantity s ci.item_id
          (q?.getD ci.quantity) with
          cart_items := s.cart_items.filter (fun r => !(r.id == ci.id)) } j =
          stockSum s j + (if ci.item_id = j then q?.getD ci.quantity else 0) :=
        stockSum_adjust s ci.item_id j _ hW1 hcov
      have hrows : draftCartQty { adjustQuantity s ci.item_id
          (q?.getD ci.quantity) with
          cart_items := s.cart_items.filter (fun r => !(r.id == ci.id)) } j =
          draftCartQty s j - rowContrib s.carts j ci :=
        rowFilterSum s.cart_items ci hW2 hcimem (rowContrib s.carts j)
      rw [hstock, hrows, rowContrib_draft s.carts j ci hdraftci]
      have hfull : q?.getD ci.quantity = ci.quantity := by linarith
      rw [hfull]
      by_cases hij : ci.item_id = j
      · rw [if_pos hij]; ring
      · rw [if_neg hij]; ring
  · constructor
    · refine ⟨?_, ?_, ?_, ?_⟩
      · show ((adjustQuantity s ci.item_id
            (q?.getD ci.quantity)).stocks.map StockEntry.item_id).Nodup
        rw [adjust_stocks_item_ids]
        exact hW1
      · show (((s.cart_items.map (fun r =>
            if r.id == ci.id then
              { r with quantity := ci.quantity - q?.getD ci.quantity }
            else r)).map CartItem.id)).Nodup
        have hsame : (s.cart_items.map (fun r =>
            if r.id == ci.id then
              { r with quantity := ci.quantity - q?.getD ci.quantity }
            else r)).map CartItem.id = s.cart_items.map CartItem.id := by
          rw [List.map_map]
          apply List.map_congr_left
          intro a _
          dsimp only [Function.comp]
          split <;> rfl
        rw [hsame]
        exact hW2
      · intro r hr
        obtain ⟨a, ha, rfl⟩ := List.mem_map.mp hr
        have hid : ((if a.id == ci.id then
            { a with quantity := ci.quantity - q?.getD ci.quantity }
            else a) : CartItem).id = a.id := by
          split <;> rfl
        rw [hid]
        exact hW3 a ha
      · intro r hr
        show (findStock? (adjustQuantity s ci.item_id
          (q?.getD ci.quantity)) r.item_id).isSome = true
        rw [findStock?_isSome_adjust]
        obtain ⟨a, ha, rfl⟩ := List.mem_map.mp hr
        have hid : ((if a.id == ci.id then
            { a with quantity := ci.quantity - q?.getD ci.quantity }
            else a) : CartItem).item_id = a.item_id := by
          split <;> rfl
        rw [hid]
        exact hW4 a ha
    · intro j
      unfold conservedQty
      have hstock : stockSum { adjustQuantity s ci.item_id
          (q?.getD ci.quantity) with
          cart_items := s.cart_items.map (fun r =>
            if r.id == ci.id then
              { r with quantity := ci.quantity - q?.getD ci.quantity }
            else r) } j =
          stockSum s j + (if ci.item_id = j then q?.getD ci.quantity else 0) :=
        stockSum_adjust s ci.item_id j _ hW1 hcov
      have hrows : draftCartQty { adjustQuantity s ci.item_id
          (q?.getD ci.quantity) with
          cart_items := s.cart_items.map (fun r =>
            if r.id == ci.id then
              { r with quantity := ci.quantity - q?.getD ci.quantity }
            else r) } j =
          draftCartQty s j - rowContrib s.carts j ci +
            rowContrib s.carts j
              { ci with quantity := ci.quantity - q?.getD ci.quantity } :=
        rowMapSum s.cart_items ci hW2 hcimem _ (rowContrib s.carts j)
      have hu : rowContrib s.carts j
          { ci with quantity := ci.quantity - q?.getD ci.quantity } =
          if ci.item_id = j then ci.quantity - q?.getD ci.quantity else 0 := by
        rw [rowContrib_draft s.carts j
          ({ ci with quantity := ci.quantity - q?.getD ci.quantity })
          hdraftci]
      rw [hstock, hrows, rowContrib_draft s.carts j ci hdraftci, hu]
      by_cases hij : ci.item_id = j
      · rw [if_pos hij, if_pos hij, if_pos hij]; ring
      · rw [if_neg hij, if_neg hij, if_neg hij]; ring

/-- Success shape of `clear_cart`: stock restored for every row of the
cart, then the rows deleted. -/
theorem clearCart_ok_shape (s : St) (c : ℕ) (s' : St)
    (h : clearCart s c = .ok s') :
    ∃ cart, findCart? s c = some cart ∧ cart.status = CartStatus.draft ∧
      s' = { (listCartItems s cart.id).foldl
          (fun t ci => adjustQuantity t ci.item_id ci.quantity) s with
        cart_items := ((listCartItems s cart.id).foldl
          (fun t ci =>
            adjustQuantity t ci.item_id ci.quantity) s).cart_items.filter
              (fun r => !(r.cart_id == cart.id)) } := by
  unfold clearCart at h
  cases hfc : findCart? s c with
  | none => rw [hfc] at h; exact absurd h (by simp)
  | some cart =>
    rw [hfc] at h
    dsimp only at h
    by_cases hst : cart.status ≠ CartStatus.draft
    · rw [if_pos hst] at h; exact absurd h (by simp)
    · rw [if_neg hst] at h
      have hs' := (Except.ok.injEq _ _).mp h
      exact ⟨cart, rfl, not_ne_iff.mp hst, hs'.symm⟩

/-- `clear_cart` keeps the well-formedness facts and conserves
stock-plus-draft-cart quantity for every item. -/
theorem clearCart_ok_conserve (s : St) (c : ℕ) (hW : CartWF s) :
    ∀ s', clearCart s c = .ok s' →
      CartWF s' ∧ ∀ j, conservedQty s' j = conservedQty s j := by
  intro s' h
  obtain ⟨cart, hfc, hst, hshape⟩ := clearCart_ok_shape s c s' h
  obtain ⟨hW1, hW2, hW3, hW4⟩ := hW
  have hframe := foldl_adjust_frame (listCartItems s cart.id) s
  have hdraft : isDraftCartIn s.carts cart.id = true :=
    isDraftCartIn_of_findCart hfc hst
  have hcovL : ∀ r ∈ listCartItems s cart.id,
      (findStock? s r.item_id).isSome :=
    fun r hr => hW4 r (List.mem_of_mem_filter hr)
  subst hshape
  constructor
  · refine ⟨?_, ?_, ?_, ?_⟩
    · show ((((listCartItems s cart.id).foldl
          (fun t ci => adjustQuantity t ci.item_id ci.quantity) s).stocks.map
          StockEntry.item_id)).Nodup
      rw [hframe.2.2.1]
      exact hW1
    · show (((((listCartItems s cart.id).foldl
          (fun t ci =>
            adjustQuantity t ci.item_id ci.quantity) s).cart_items.filter
          (fun r => !(r.cart_id == cart.id))).map CartItem.id)).Nodup
      rw [hframe.2.1]
      exact hW2.sublist ((List.filter_sublist _).map _)
    · intro r hr
      have hr' : r ∈ (((listCartItems s cart.id).foldl
          (fun t ci =>
            adjustQuantity t ci.item_id ci.quantity) s).cart_items.filter
          (fun r => !(r.cart_id == cart.id))) := hr
      rw [hframe.2.1] at hr'
      show r.id < ((listCartItems s cart.id).foldl
        (fun t ci =>
          adjustQuantity t ci.item_id ci.quantity) s).next_cart_item_id
      rw [hframe.2.2.2]
      exact hW3 r (List.mem_of_mem_filter hr')
    · intro r hr
      have hr' : r ∈ (((listCartItems s cart.id).foldl
          (fun t ci =>
            adjustQuantity t ci.item_id ci.quantity) s).cart_items.filter
          (fun r => !(r.cart_id == cart.id))) := hr
      rw [hframe.2.1] at hr'
      have hiso : (findStock? { (listCartItems s cart.id).foldl
          (fun t ci => adjustQuantity t ci.item_id ci.quantity) s with
          cart_items := ((listCartItems s cart.id).foldl
            (fun t ci =>
              adjustQuantity t ci.item_id ci.quantity) s).cart_items.filter
                (fun r => !(r.cart_id == cart.id)) } r.item_id).isSome =
          (findStock? s r.item_id).isSome :=
        findStock?_isSome_of_item_ids hframe.2.2.1 r.item_id
      rw [hiso]
      exact hW4 r (List.mem_of_mem_filter hr')
  · intro j
    unfold conservedQty
    have hstock : stockSum { (listCartItems s cart.id).foldl
        (fun t ci => adjustQuantity t ci.item_id ci.quantity) s with
        cart_items := ((listCartItems s cart.id).foldl
          (fun t ci =>
            adjustQuantity t ci.item_id ci.quantity) s).cart_items.filter
              (fun r => !(r.cart_id == cart.id)) } j =
        stockSum s j + ((listCartItems s cart.id).map
          (fun r => if r.item_id == j then r.quantity else 0)).sum :=
      foldl_adjust_stockSum (listCartItems s cart.id) s j hW1 hcovL
    have hrows : draftCartQty { (listCartItems s cart.id).foldl
        (fun t ci => adjustQuantity t ci.item_id ci.quantity) s with
        cart_items := ((listCartItems s cart.id).foldl
          (fun t ci =>
            adjustQuantity t ci.item_id ci.quantity) s).cart_items.filter
              (fun r => !(r.cart_id == cart.id)) } j =
        ((s.cart_items.filter (fun r => !(r.cart_id == cart.id))).map
          (rowContrib s.carts j)).sum := by
      have h0 : draftCartQty { (listCartItems s cart.id).foldl
          (fun t ci => adjustQuantity t ci.item_id ci.quantity) s with
          cart_items := ((listCartItems s cart.id).foldl
            (fun t ci =>
              adjustQuantity t ci.item_id ci.quantity) s).cart_items.filter
                (fun r => !(r.cart_id == cart.id)) } j =
          (((((listCartItems s cart.id).foldl
            (fun t ci =>
              adjustQuantity t ci.item_id ci.quantity) s).cart_items.filter
            (fun r => !(r.cart_id == cart.id))).map
              (rowContrib (((listCartItems s cart.id).foldl
                (fun t ci =>
                  adjustQuantity t ci.item_id ci.quantity) s).carts) j)).sum) :=
        rfl
      rw [h0, hframe.1, hframe.2.1]
    have hremoved : ((s.cart_items.filter
        (fun r => r.cart_id == cart.id)).map (rowContrib s.carts j)).sum =
        ((listCartItems s cart.id).map
          (fun r => if r.item_id == j then r.quantity else 0)).sum := by
      apply congrArg
      apply List.map_congr_left
      intro r hr
      have hrc : r.cart_id = cart.id := by
        simpa using (List.mem_filter.mp hr).2
      have hdr : isDraftCartIn s.carts r.cart_id = true := by
        rw [hrc]
        exact hdraft
      rw [rowContrib_draft s.carts j r hdr]
      by_cases hij : r.item_id = j
      · rw [if_pos hij, if_pos (by simpa using hij)]
      · rw [if_neg hij, if_neg (by simpa using hij)]
    rw [hstock, hrows, rowFilterCartSum s.cart_items cart.id
      (rowContrib s.carts j), hremoved]
    unfold draftCartQty
    ring

/-- One request (committed or rolled back) keeps well-formedness and
conserves the per-item quantity. -/
theorem applyCartOp_conserve (s : St) (op : CartOp) (hW : CartWF s) :
    CartWF (applyCartOp s op) ∧
    ∀ j, conservedQty (applyCartOp s op) j = conservedQty s j := by
  cases op with
  | add c i q =>
    show CartWF (commitOrRollback s (addItem s c i q)) ∧
      ∀ j, conservedQty (commitOrRollback s (addItem s c i q)) j =
        conservedQty s j
    cases hrun : addItem s c i q with
    | ok s' => exact addItem_ok_conserve s c i q hW s' hrun
    | error e => exact ⟨hW, fun _ => rfl⟩
  | update c ci q =>
    show CartWF (commitOrRollback s (updateItem s c ci q)) ∧
      ∀ j, conservedQty (commitOrRollback s (updateItem s c ci q)) j =
        conservedQty s j
    cases hrun : updateItem s c ci q with
    | ok s' => exact updateItem_ok_conserve s c ci q hW s' hrun
    | error e => exact ⟨hW, fun _ => rfl⟩
  | ret c ci q? =>
    show CartWF (commitOrRollback s (returnItem s c ci q?)) ∧
      ∀ j, conservedQty (commitOrRollback s (returnItem s c ci q?)) j =
        conservedQty s j
    cases hrun : returnItem s c ci q? with
    | ok s' => exact returnItem_ok_conserve s c ci q? hW s' hrun
    | error e => exact ⟨hW, fun _ => rfl⟩
  | clear c =>
    show CartWF (commitOrRollback s (clearCart s c)) ∧
      ∀ j, conservedQty (commitOrRollback s (clearCart s c)) j =
        conservedQty s j
    cases hrun : clearCart s c with
    | ok s' => exact clearCart_ok_conserve s c hW s' hrun
    | error e => exact ⟨hW, fun _ => rfl⟩

/-- Sequences of requests keep well-formedness and conserve the
per-item quantity. -/
theorem applyCartOps_conserve (ops : List CartOp) (s : St) (hW : CartWF s) :
    CartWF (applyCartOps s ops) ∧
    ∀ j, conservedQty (applyCartOps s ops) j = conservedQty s j := by
  induction ops generalizing s with
  | nil => exact ⟨hW, fun _ => rfl⟩
  | cons op ops ih =>
    have hstep := applyCartOp_conserve s op hW
    have hrest := ih (applyCartOp s op) hstep.1
    exact ⟨hrest.1, fun j => (hrest.2 j).trans (hstep.2 j)⟩

/-- C2: over any sequence of add_item / update_item / return_item /
clear_cart requests with no external restock, and for every item, the
stock entry quantity plus the item's quantities across all draft carts'
cart items is constant — each operation's stock adjustment exactly
offsets its cart-item change (failures roll back). -/
theorem stock_conservation (ops : List CartOp) (s : St) (j : ℕ)
    (hW : CartWF s) :
    conservedQty (applyCartOps s ops) j = conservedQty s j :=
  (applyCartOps_conserve ops s hW).2 j

/-- Witness for C2 at the concrete state: adding one more unit of
item 1 to draft cart 1 is impossible (the pair exists), but a partial
return of 1 then an update to quantity 3 keeps stock 5 + cart 2 = 7. -/
theorem stock_conservation_witness :
    conservedQty (applyCartOps exSt
      [CartOp.ret 1 1 (some 1), CartOp.update 1 1 3]) 1 =
      conservedQty exSt 1 :=
  stock_conservation [CartOp.ret 1 1 (some 1), CartOp.update 1 1 3] exSt 1
    ⟨by simp [StocksUnique, exSt], by simp [exSt],
     by intro r hr; simp [exSt] at hr; subst hr; norm_num [exSt],
     by intro r hr; simp [exSt] at hr; subst hr; rfl⟩

/-! ## C1: cart totals versus daily settlement totals -/

/-- `Int.log 2` determined by a two-power bracket. -/
theorem int_log2_eq {q : ℚ} {e : ℤ} (h0 : 0 < q)
    (h1 : (2 : ℚ) ^ e ≤ q) (h2 : q < (2 : ℚ) ^ (e + 1)) :
    Int.log 2 q = e := by
  have hle : e ≤ Int.log 2 q := by
    rw [← Int.zpow_le_iff_le_log (by norm_num) h0]
    exact_mod_cast h1
  have hlt : Int.log 2 q < e + 1 := by
    rw [← Int.lt_zpow_iff_log_lt (by norm_num) h0]
    exact_mod_cast h2
  omega

theorem float64_zero : float64 0 = 0 := by
  simp [float64]

/-- The integer `2` is binary64-exact. -/
theorem float64_two : float64 2 = 2 := by
  have hlog : Int.log 2 ((2 : ℚ)) = 1 :=
    int_log2_eq (by norm_num) (by norm_num) (by norm_num)
  unfold float64
  rw [if_neg (by norm_num), if_pos (by norm_num), hlog]
  norm_num [rhe]

/-- The double nearest the decimal `3.335` lies strictly below it:
`3.335 · 2^51` has fractional part `.08`, so the 53-bit significand
rounds down and `Decimal(float)` sees `3.33499999999999996447…`. -/
theorem float64_3335 :
    float64 (667/200) = 7509752378640302 / 2251799813685248 := by
  have hlog : Int.log 2 ((667 : ℚ)/200) = 1 :=
    int_log2_eq (by norm_num) (by norm_num) (by norm_num)
  unfold float64
  rw [if_neg (by norm_num), if_pos (by norm_num), hlog]
  norm_num [rhe]

/-- A value with at most two decimal places. -/
def Is2dp (q : ℚ) : Prop := ∃ n : ℤ, q * 100 = n

/-- `_money` is the identity on two-decimal values. -/
theorem money_of_2dp {q : ℚ} (h : Is2dp q) : money q = q := by
  obtain ⟨n, hn⟩ := h
  have hq : q = (n : ℚ) / 100 := by
    field_simp
    linarith [hn]
  subst hq
  unfold money
  by_cases hneg : (n : ℚ) / 100 < 0
  · rw [if_pos hneg]
    have h1 : -((n : ℚ) / 100) * 100 + 1 / 2 = 1 / 2 + ((-n : ℤ) : ℚ) := by
      push_cast
      ring
    rw [h1, Int.floor_add_int]
    norm_num
    ring
  · rw [if_neg hneg]
    have h1 : (n : ℚ) / 100 * 100 + 1 / 2 = 1 / 2 + ((n : ℤ) : ℚ) := by
      ring
    rw [h1, Int.floor_add_int]
    norm_num

/-- `_money` always produces a two-decimal value. -/
theorem money_is2dp (q : ℚ) : Is2dp (money q) := by
  unfold money
  by_cases hneg : q < 0
  · rw [if_pos hneg]
    exact ⟨-⌊-q * 100 + 1 / 2⌋, by push_cast; ring⟩
  · rw [if_neg hneg]
    exact ⟨⌊q * 100 + 1 / 2⌋, by ring⟩

theorem is2dp_zero : Is2dp 0 := ⟨0, by norm_num⟩

theorem is2dp_add {a b : ℚ} (ha : Is2dp a) (hb : Is2dp b) : Is2dp (a + b) := by
  obtain ⟨n, hn⟩ := ha
  obtain ⟨m, hm⟩ := hb
  exact ⟨n + m, by push_cast; rw [add_mul, hn, hm]⟩

theorem is2dp_neg {a : ℚ} (ha : Is2dp a) : Is2dp (-a) := by
  obtain ⟨n, hn⟩ := ha
  exact ⟨-n, by push_cast; rw [neg_mul, hn]⟩

theorem is2dp_sub {a b : ℚ} (ha : Is2dp a) (hb : Is2dp b) : Is2dp (a - b) := by
  rw [sub_eq_add_neg]
  exact is2dp_add ha (is2dp_neg hb)

theorem is2dp_sum (l : List ℚ) (h : ∀ x ∈ l, Is2dp x) : Is2dp l.sum := by
  induction l with
  | nil => exact is2dp_zero
  | cons a l ih =>
    rw [List.sum_cons]
    exact is2dp_add (h a (by simp)) (ih (fun x hx => h x (by simp [hx])))

/-- Every field of a pricing line is a two-decimal value. -/
theorem line_fields_2dp (up q dr tr : ℚ) :
    Is2dp (calcLine up q dr tr).line_subtotal ∧
    Is2dp (calcLine up q dr tr).line_discount ∧
    Is2dp (calcLine up q dr tr).line_tax ∧
    Is2dp (calcLine up q dr tr).line_total := by
  unfold calcLine
  exact ⟨money_is2dp _, money_is2dp _, money_is2dp _, money_is2dp _⟩

/-- The cart totals are the raw sums of the (already rounded) line
values — the outer `_money` calls are identities. -/
theorem calculateTotals_components (s : St) (cid : ℕ) :
    (calculateTotals s cid).subtotal =
      ((cartRows s cid).map (fun r => (lineOf r).line_subtotal)).sum ∧
    (calculateTotals s cid).discount_total =
      ((cartRows s cid).map (fun r => (lineOf r).line_discount)).sum ∧
    (calculateTotals s cid).tax_total =
      ((cartRows s cid).map (fun r => (lineOf r).line_tax)).sum ∧
    (calculateTotals s cid).total =
      ((cartRows s cid).map (fun r => (lineOf r).line_subtotal)).sum -
      ((cartRows s cid).map (fun r => (lineOf r).line_discount)).sum +
      ((cartRows s cid).map (fun r => (lineOf r).line_tax)).sum := by
  have hsub2 : Is2dp ((cartRows s cid).map
      (fun r => (lineOf r).line_subtotal)).sum := by
    apply is2dp_sum
    intro x hx
    obtain ⟨r, _, rfl⟩ := List.mem_map.mp hx
    exact (line_fields_2dp r.unit_price r.quantity r.discount_rate
      r.tax_rate).1
  have hdis2 : Is2dp ((cartRows s cid).map
      (fun r => (lineOf r).line_discount)).sum := by
    apply is2dp_sum
    intro x hx
    obtain ⟨r, _, rfl⟩ := List.mem_map.mp hx
    exact (line_fields_2dp r.unit_price r.quantity r.discount_rate
      r.tax_rate).2.1
  have htax2 : Is2dp ((cartRows s cid).map
      (fun r => (lineOf r).line_tax)).sum := by
    apply is2dp_sum
    intro x hx
    obtain ⟨r, _, rfl⟩ := List.mem_map.mp hx
    exact (line_fields_2dp r.unit_price r.quantity r.discount_rate
      r.tax_rate).2.2.1
  unfold calculateTotals
  by_cases hemp : (listCartItems s cid).isEmpty
  · rw [if_pos hemp]
    have hrows : cartRows s cid = [] := by
      unfold cartRows
      rw [List.isEmpty_iff.mp hemp]
      rfl
    rw [hrows]
    norm_num
  · rw [if_neg hemp]
    dsimp only
    rw [List.map_map, List.map_map, List.map_map]
    refine ⟨money_of_2dp ?_, money_of_2dp ?_, money_of_2dp ?_,
      money_of_2dp ?_⟩
    · exact hsub2
    · exact hdis2
    · exact htax2
    · exact is2dp_add (is2dp_sub hsub2 hdis2) htax2

/-- The aggregation loop over rows with pairwise-distinct item ids just
prices each row at its own quantity. -/
theorem aggregate_go (rows : List JoinedRow) (acc : List AggItem)
    (hd : ∀ a ∈ acc, ∀ r ∈ rows, a.item_id ≠ r.item_id)
    (hp : rows.Pairwise (fun a b => a.item_id ≠ b.item_id)) :
    rows.foldl aggStep acc = acc ++ rows.map mkAggItem := by
  induction rows generalizing acc with
  | nil => simp
  | cons r rows ih =>
    rw [List.foldl_cons]
    have hnone : (acc.any (fun a => a.item_id == r.item_id)) = false := by
      rw [List.any_eq_false]
      intro a ha
      simp only [beq_iff_eq]
      exact hd a ha r (by simp)
    have hstep : aggStep acc r = acc ++ [mkAggItem r] := by
      unfold aggStep
      rw [hnone]
      rfl
    rw [hstep, ih (acc ++ [mkAggItem r]) ?_ (List.pairwise_cons.mp hp).2,
      List.append_assoc, List.singleton_append, List.map_cons]
    intro a ha r' hr'
    rcases List.mem_append.mp ha with hold | hnew
    · exact hd a hold r' (by simp [hr'])
    · rw [List.mem_singleton] at hnew
      subst hnew
      show (mkAggItem r).item_id ≠ r'.item_id
      have : (mkAggItem r).item_id = r.item_id := rfl
      rw [this]
      exact (List.pairwise_cons.mp hp).1 r' hr'

/-- `_aggregate_cart_items` on pairwise-distinct rows. -/
theorem aggregate_distinct (rows : List JoinedRow)
    (hp : rows.Pairwise (fun a b => a.item_id ≠ b.item_id)) :
    aggregateCartItems rows = rows.map mkAggItem := by
  unfold aggregateCartItems
  rw [aggregate_go rows [] (by intro a ha; cases ha) hp]
  rfl

/-- Value contributed by one cart item row after the catalog join. -/
def joinVal (s : St) (g : JoinedRow → ℚ) (ci : CartItem) : ℚ :=
  ((joinRow s ci).map g).getD 0

/-- Summing joined values over a cons. -/
theorem filterMap_map_sum_cons (s : St) (g : JoinedRow → ℚ) (ci : CartItem)
    (l : List CartItem) :
    (((ci :: l).filterMap (joinRow s)).map g).sum =
      joinVal s g ci + ((l.filterMap (joinRow s)).map g).sum := by
  rw [List.filterMap_cons]
  cases hj : joinRow s ci with
  | none => simp [joinVal, hj]
  | some r => simp [joinVal, hj]

/-- A sum of indicator values over distinct ids picks at most one. -/
theorem sum_if_single (ids : List ℕ) (hids : ids.Nodup) (c : ℕ) (x : ℚ) :
    (ids.map (fun cid => if c == cid then x else 0)).sum =
      if ids.contains c then x else 0 := by
  induction ids with
  | nil => simp
  | cons i ids ih =>
    rw [List.map_cons, List.sum_cons, ih (List.nodup_cons.mp hids).2]
    by_cases hc : c = i
    · subst hc
      have hnm : c ∉ ids := (List.nodup_cons.mp hids).1
      rw [if_pos (by simp), if_neg (by simp [hnm]), if_pos (by simp)]
      ring
    · rw [if_neg (by simpa using hc)]
      by_cases hmem : c ∈ ids
      · rw [if_pos (by simp [hmem]), if_pos (by simp [hmem])]
        ring
      · rw [if_neg (by simp [hmem]), if_neg (by simp [hmem, hc])]
        ring

/-- Decomposition of the day's joined-row sum into per-cart sums, for
distinct cart ids. -/
theorem rows_decomp (l : List CartItem) (s : St) (ids : List ℕ)
    (hids : ids.Nodup) (g : JoinedRow → ℚ) :
    (((l.filter (fun ci => ids.contains ci.cart_id)).filterMap
        (joinRow s)).map g).sum =
      (ids.map (fun cid =>
        (((l.filter (fun r => r.cart_id == cid)).filterMap
          (joinRow s)).map g).sum)).sum := by
  induction l with
  | nil => simp
  | cons ci l ih =>
    have hsplit : ∀ cid : ℕ,
        ((((ci :: l).filter (fun r => r.cart_id == cid)).filterMap
          (joinRow s)).map g).sum =
        (if ci.cart_id == cid then joinVal s g ci else 0) +
          (((l.filter (fun r => r.cart_id == cid)).filterMap
            (joinRow s)).map g).sum := by
      intro cid
      rw [List.filter_cons]
      by_cases hc : (ci.cart_id == cid) = true
      · rw [if_pos hc, filterMap_map_sum_cons, if_pos hc]
      · rw [if_neg hc, if_neg hc]
        ring
    have hcongr : ids.map (fun cid =>
        ((((ci :: l).filter (fun r => r.cart_id == cid)).filterMap
          (joinRow s)).map g).sum) =
        ids.map (fun cid =>
          (if ci.cart_id == cid then joinVal s g ci else 0) +
          (((l.filter (fun r => r.cart_id == cid)).filterMap
            (joinRow s)).map g).sum) :=
      List.map_congr_left (fun cid _ => hsplit cid)
    have hrhs : (ids.map (fun cid =>
        ((((ci :: l).filter (fun r => r.cart_id == cid)).filterMap
          (joinRow s)).map g).sum)).sum =
        (ids.map (fun cid =>
          if ci.cart_id == cid then joinVal s g ci else 0)).sum +
        (ids.map (fun cid =>
          (((l.filter (fun r => r.cart_id == cid)).filterMap
            (joinRow s)).map g).sum)).sum := by
      rw [hcongr]
      exact List.sum_map_add
    rw [hrhs, sum_if_single ids hids ci.cart_id (joinVal s g ci), ← ih]
    rw [List.filter_cons]
    by_cases hm : (ids.contains ci.cart_id) = true
    · rw [if_pos hm, filterMap_map_sum_cons, if_pos hm]
    · rw [if_neg hm, if_neg hm]
      ring

/-- Componentwise sums distribute over `a - b + c`. -/
theorem sum_map_sub_add {α : Type} (l : List α) (f g h : α → ℚ) :
    (l.map (fun x => f x - g x + h x)).sum =
      (l.map f).sum - (l.map g).sum + (l.map h).sum := by
  induction l with
  | nil => simp
  | cons a l ih =>
    simp only [List.map_cons, List.sum_cons, ih]
    ring

/-- C1 (amended): when the catalog values are binary64-exact (so the
`Decimal(float)` hydration of `calculate_totals` and the
`Decimal(str(float))` hydration of the settlement agree), the carts
have distinct ids, and no item occurs in more than one cart-item row
among the day's carts, the daily settlement totals equal the
componentwise sums of `calculate_totals` over the day's carts. (In
general they can differ by cents, both because the settlement re-prices
each item at its aggregated quantity and because `calculate_totals`
prices with the binary64 image of each catalog value while the
settlement uses the stored decimal itself.) -/
theorem daily_totals_eq_cart_totals_sum_of_disjoint (s : St) (d : ℕ)
    (hcarts : (s.carts.map Cart.id).Nodup)
    (hdist : (dayRows s ((cartsForDate s d).map Cart.id)).Pairwise
      (fun a b => a.item_id ≠ b.item_id))
    (hexact : ∀ i ∈ s.items, float64 i.unit_price = i.unit_price ∧
      float64 i.discount_rate = i.discount_rate ∧
      float64 i.tax_rate = i.tax_rate) :
    (dailyTotals (aggregateCartItems
        (dayRows s ((cartsForDate s d).map Cart.id)))).subtotal =
      ((cartsForDate s d).map
        (fun c => (calculateTotals s c.id).subtotal)).sum ∧
    (dailyTotals (aggregateCartItems
        (dayRows s ((cartsForDate s d).map Cart.id)))).discount_total =
      ((cartsForDate s d).map
        (fun c => (calculateTotals s c.id).discount_total)).sum ∧
    (dailyTotals (aggregateCartItems
        (dayRows s ((cartsForDate s d).map Cart.id)))).tax_total =
      ((cartsForDate s d).map
        (fun c => (calculateTotals s c.id).tax_total)).sum ∧
    (dailyTotals (aggregateCartItems
        (dayRows s ((cartsForDate s d).map Cart.id)))).total =
      ((cartsForDate s d).map
        (fun c => (calculateTotals s c.id).total)).sum := by
  have hids : (((cartsForDate s d).map Cart.id)).Nodup :=
    hcarts.sublist ((List.filter_sublist _).map _)
  have hJ : ∀ ci : CartItem, joinRowCart s ci = joinRow s ci := by
    intro ci
    unfold joinRowCart joinRow
    cases hf : findItem? s ci.item_id with
    | none => rfl
    | some i =>
      have hmem : i ∈ s.items := List.mem_of_find?_eq_some hf
      obtain ⟨e1, e2, e3⟩ := hexact i hmem
      simp [e1, e2, e3]
  have hCR : ∀ cid : ℕ, cartRows s cid =
      (listCartItems s cid).filterMap (joinRow s) := by
    intro cid
    unfold cartRows
    exact List.filterMap_congr (fun ci _ => hJ ci)
  rw [aggregate_distinct _ hdist]
  have hcomp : ∀ f : Line → ℚ,
      ((dayRows s ((cartsForDate s d).map Cart.id)).map
        (fun r => f (lineOf r))).sum =
      ((cartsForDate s d).map (fun c =>
        (((listCartItems s c.id).filterMap (joinRow s)).map
          (fun r => f (lineOf r))).sum)).sum := by
    intro f
    have hdec := rows_decomp s.cart_items s ((cartsForDate s d).map Cart.id)
      hids (fun r => f (lineOf r))
    have hlhs : (dayRows s ((cartsForDate s d).map Cart.id)).map
        (fun r => f (lineOf r)) =
        ((s.cart_items.filter (fun ci =>
          ((cartsForDate s d).map Cart.id).contains ci.cart_id)).filterMap
            (joinRow s)).map (fun r => f (lineOf r)) := rfl
    rw [hlhs, hdec, List.map_map]
    rfl
  have hfield : ∀ (pa : AggItem → ℚ) (pl : Line → ℚ),
      (∀ r : JoinedRow, pa (mkAggItem r) = pl (lineOf r)) →
      (((dayRows s ((cartsForDate s d).map Cart.id)).map mkAggItem).map
        pa).sum =
      ((dayRows s ((cartsForDate s d).map Cart.id)).map
        (fun r => pl (lineOf r))).sum := by
    intro pa pl hpoint
    rw [List.map_map]
    exact congrArg List.sum (List.map_congr_left (fun r _ => hpoint r))
  have h2dp : ∀ pl : Line → ℚ, (∀ up q dr tr, Is2dp (pl (calcLine up q dr tr))) →
      Is2dp ((dayRows s ((cartsForDate s d).map Cart.id)).map
        (fun r => pl (lineOf r))).sum := by
    intro pl hpl
    apply is2dp_sum
    intro x hx
    obtain ⟨r, _, rfl⟩ := List.mem_map.mp hx
    exact hpl _ _ _ _
  unfold dailyTotals
  dsimp only
  have hsubpoint : ∀ r : JoinedRow,
      AggItem.line_subtotal (mkAggItem r) = Line.line_subtotal (lineOf r) :=
    fun r => rfl
  have hdispoint : ∀ r : JoinedRow,
      AggItem.line_discount (mkAggItem r) = Line.line_discount (lineOf r) :=
    fun r => rfl
  have htaxpoint : ∀ r : JoinedRow,
      AggItem.line_tax (mkAggItem r) = Line.line_tax (lineOf r) :=
    fun r => rfl
  rw [hfield AggItem.line_subtotal Line.line_subtotal hsubpoint,
    hfield AggItem.line_discount Line.line_discount hdispoint,
    hfield AggItem.line_tax Line.line_tax htaxpoint]
  have hsub2 := h2dp Line.line_subtotal
    (fun up q dr tr => (line_fields_2dp up q dr tr).1)
  have hdis2 := h2dp Line.line_discount
    (fun up q dr tr => (line_fields_2dp up q dr tr).2.1)
  have htax2 := h2dp Line.line_tax
    (fun up q dr tr => (line_fields_2dp up q dr tr).2.2.1)
  rw [money_of_2dp hsub2, money_of_2dp hdis2, money_of_2dp htax2,
    money_of_2dp (is2dp_add (is2dp_sub hsub2 hdis2) htax2)]
  rw [hcomp Line.line_subtotal, hcomp Line.line_discount,
    hcomp Line.line_tax]
  refine ⟨?_, ?_, ?_, ?_⟩
  · refine congrArg List.sum (List.map_congr_left (fun c _ => ?_))
    rw [← hCR c.id]
    exact ((calculateTotals_components s c.id).1).symm
  · refine congrArg List.sum (List.map_congr_left (fun c _ => ?_))
    rw [← hCR c.id]
    exact ((calculateTotals_components s c.id).2.1).symm
  · refine congrArg List.sum (List.map_congr_left (fun c _ => ?_))
    rw [← hCR c.id]
    exact ((calculateTotals_components s c.id).2.2.1).symm
  · rw [← sum_map_sub_add (cartsForDate s d)
      (fun c => (((listCartItems s c.id).filterMap (joinRow s)).map
        (fun r => Line.line_subtotal (lineOf r))).sum)
      (fun c => (((listCartItems s c.id).filterMap (joinRow s)).map
        (fun r => Line.line_discount (lineOf r))).sum)
      (fun c => (((listCartItems s c.id).filterMap (joinRow s)).map
        (fun r => Line.line_tax (lineOf r))).sum)]
    apply congrArg List.sum
    apply List.map_congr_left
    intro c _
    rw [← hCR c.id]
    have hc := calculateTotals_components s c.id
    rw [hc.2.2.2]

/-- The concrete two-cart day used against C1 as stated: both carts hold
one unit of the 3.335-priced item. -/
def exC1St : St :=
  { items := [⟨1, "tea", "SKU2", 667/200, 0, 0⟩]
    stocks := []
    carts := [⟨1, none, CartStatus.draft, 0⟩, ⟨2, none, CartStatus.draft, 0⟩]
    cart_items := [⟨1, 1, 1, 1⟩, ⟨2, 2, 1, 1⟩]
    accounts := []
    account_items := []
    next_cart_item_id := 3
    next_account_id := 1
    next_account_item_id := 1 }

/-- C1 counterexample: closing day 0 records subtotal 6.67 (the
settlement reads the stored decimal 3.335 via `Decimal(str(float))` and
prices it at the aggregate quantity 2), while each cart's
`calculate_totals` prices the binary64 image of 3.335 — strictly below
3.335, quantizing to 3.33 — so the two carts' subtotals sum to 6.66;
the ledger contribution does not match the cart totals to the cent. -/
theorem c1_counterexample :
    (closeByDate exC1St 0 1 5).map
        (fun s1 => (findAccountByDate? s1 0).map DailyAccount.subtotal) =
      .ok (some (667/100)) ∧
    (calculateTotals exC1St 1).subtotal +
      (calculateTotals exC1St 2).subtotal = 666/100 ∧
    (667/100 : ℚ) ≠ 666/100 := by
  refine ⟨?_, ?_, by norm_num⟩
  · norm_num [closeByDate, findAccountByDate?, cartsForDate, dayRows,
      joinRow, findItem?, aggregateCartItems, aggStep, mkAggItem,
      bumpAggItem, calcLine, lineOf, money, dailyTotals,
      insertAccountItems, closeAccountRow, exC1St, List.foldl_cons,
      List.foldl_nil, List.filterMap_cons, List.filter_cons,
      List.find?_cons, List.any_cons, List.any_nil, List.isEmpty,
      Except.map, Option.map]
  · norm_num [calculateTotals, cartRows, listCartItems, joinRowCart,
      findItem?, float64_3335, float64_zero, lineOf, calcLine, money,
      exC1St, List.filterMap_cons, List.filter_cons, List.find?_cons,
      List.isEmpty]

/-- Witness for the amended C1 at the concrete state: day 3 has three
carts whose cart items mention item 1 exactly once overall, and the
catalog values 2, 0, 0 are binary64-exact. -/
theorem daily_totals_eq_cart_totals_sum_of_disjoint_witness :
    (dailyTotals (aggregateCartItems
        (dayRows exSt ((cartsForDate exSt 3).map Cart.id)))).subtotal =
      ((cartsForDate exSt 3).map
        (fun c => (calculateTotals exSt c.id).subtotal)).sum ∧
    (dailyTotals (aggregateCartItems
        (dayRows exSt ((cartsForDate exSt 3).map Cart.id)))).discount_total =
      ((cartsForDate exSt 3).map
        (fun c => (calculateTotals exSt c.id).discount_total)).sum ∧
    (dailyTotals (aggregateCartItems
        (dayRows exSt ((cartsForDate exSt 3).map Cart.id)))).tax_total =
      ((cartsForDate exSt 3).map
        (fun c => (calculateTotals exSt c.id).tax_total)).sum ∧
    (dailyTotals (aggregateCartItems
        (dayRows exSt ((cartsForDate exSt 3).map Cart.id)))).total =
      ((cartsForDate exSt 3).map
        (fun c => (calculateTotals exSt c.id).total)).sum :=
  daily_totals_eq_cart_totals_sum_of_disjoint exSt 3
    (by simp [exSt])
    (by simp [dayRows, cartsForDate, joinRow, findItem?, exSt])
    (by simp [exSt, float64_two, float64_zero])

/-! ## C6: idempotent reclose -/

end IManagement
